import Mathlib

/-!
Verification of the rossum-api client library: shallow embedding of the
schema tree model (`rossum_api/models/schema.py`), the rule action model
(`rossum_api/models/rule.py`) and the relevant operations of
`AsyncRossumAPIClient` (`rossum_api/clients/external_async_client.py`),
with theorems settling the specification claims.
-/

/-- Python values as they appear in (de)serialized API payloads: the
image of `dataclasses.asdict` and the input of the `from_dict` class
methods.  Python `int` and `float` are distinct constructors because the
runtime type checks distinguish them; `float` payloads are carried as
`Rat` since the library never computes with them. -/
inductive Json where
  | null : Json
  | bool (b : Bool) : Json
  | int (n : Int) : Json
  | float (q : Rat) : Json
  | str (s : String) : Json
  | arr (elems : List Json) : Json
  | obj (kvs : List (String × Json)) : Json
deriving Repr

/-- A Python dictionary with string keys, as an ordered association list. -/
abbrev JDict := List (String × Json)

/-- Left-to-right effectful map over a list in the `Except` monad,
stopping at the first error (the evaluation order of Python list
comprehensions and loops). -/
def eachE (f : α → Except ε β) : List α → Except ε (List β)
  | [] => .ok []
  | x :: xs =>
    match f x with
    | .error e => .error e
    | .ok y =>
      match eachE f xs with
      | .error e => .error e
      | .ok ys => .ok (y :: ys)

/-- Left-to-right map over a list in the `Option` monad, stopping at the
first failure. -/
def eachO (f : α → Option β) : List α → Option (List β)
  | [] => some []
  | x :: xs =>
    match f x with
    | none => none
    | some y =>
      match eachO f xs with
      | none => none
      | some ys => some (y :: ys)

/-- Lookup of `d[k]` in a Python dict (first binding wins; Python dicts
have unique keys, which inputs built by `asdict` satisfy). -/
def dget (d : JDict) (k : String) : Option Json :=
  match d with
  | [] => none
  | (k₀, v₀) :: rest => if k₀ = k then some v₀ else dget rest k

/-- Python dict assignment `d[k] = v`: replaces the first binding of `k`
in place, or appends a new binding when `k` is absent. -/
def dset (d : JDict) (k : String) (v : Json) : JDict :=
  match d with
  | [] => [(k, v)]
  | (k₀, v₀) :: rest => if k₀ = k then (k₀, v) :: rest else (k₀, v₀) :: dset rest k v

/-- Errors raised during deserialization: `keyError` mirrors Python
`KeyError`, `daciteError` any error raised inside `dacite.from_dict`
(missing required field, wrong type, invalid literal), `typeError` a
Python-level type error (e.g. iterating a non-list). -/
inductive DeserErr where
  | keyError (k : String) : DeserErr
  | daciteError : DeserErr
  | typeError : DeserErr
deriving Repr, DecidableEq

/-! ## Schema tree model (`rossum_api/models/schema.py`)

The dataclasses `Datapoint`, `Multivalue`, `Tuple`, `Section`, `Schema`.
The `type` field of `Datapoint` is a `Literal` union in the source; it is
embedded as an enumeration so that only well-typed Python values are
representable, mirroring the annotation. -/

/-- The `Literal` type of `Datapoint.type`:
`"string" | "number" | "date" | "enum" | "button" | "formula" | "reasoning"`. -/
inductive DPType where
  | string | number | date | enum | button | formula | reasoning
deriving Repr, DecidableEq

/-- String tag of a `DPType` literal as it appears in payloads. -/
def DPType.tag : DPType → String
  | .string => "string"
  | .number => "number"
  | .date => "date"
  | .enum => "enum"
  | .button => "button"
  | .formula => "formula"
  | .reasoning => "reasoning"

/-- Parse a `DPType` literal from its payload tag. -/
def DPType.ofTag (s : String) : Option DPType :=
  if s = "string" then some .string
  else if s = "number" then some .number
  else if s = "date" then some .date
  else if s = "enum" then some .enum
  else if s = "button" then some .button
  else if s = "formula" then some .formula
  else if s = "reasoning" then some .reasoning
  else none

/-- The `Datapoint` dataclass: a single extracted value.  Field order and
defaults follow the source declaration. -/
structure Datapoint where
  id : String
  type : Option DPType := none
  label : Option String := none
  description : Option String := none
  category : String := "datapoint"
  disable_prediction : Bool := false
  hidden : Bool := false
  can_export : Bool := true
  can_collapse : Bool := false
  rir_field_names : Option (List String) := none
  default_value : Option String := none
  constraints : JDict := []
  score_threshold : Option Rat := none
  options : Option (List JDict) := none
  ui_configuration : Option JDict := none
  width : Option Int := none
  stretch : Bool := false
  width_chars : Option Int := none
  formula : Option String := none
  prompt : Option String := none
  context : Option (List String) := none
deriving Repr

/-- `Datapoint.is_button`: the `type` field equals `"button"`. -/
def Datapoint.is_button (d : Datapoint) : Bool :=
  d.type = some DPType.button

/-- The `Tuple` dataclass: a row template of datapoints inside a
multivalue. -/
structure Tuple where
  id : String
  children : List Datapoint
  category : String := "tuple"
  label : Option String := none
  disable_prediction : Bool := false
  hidden : Bool := false
  rir_field_names : Option (List String) := none
deriving Repr

/-- The runtime value of the `Multivalue.children` field.  The dataclass
annotation is `Datapoint | Tuple`; Python does not enforce annotations at
construction, so a raw payload value is representable (the dispatch loop
of `Multivalue.from_dict` also holds one transiently before the `dacite`
union check coerces it or raises). -/
inductive MVChild where
  | dp (d : Datapoint) : MVChild
  | tup (t : Tuple) : MVChild
  | raw (j : Json) : MVChild
deriving Repr

/-- The `Multivalue` dataclass: a repeated datapoint or tuple. -/
structure Multivalue where
  id : String
  children : MVChild
  category : String := "multivalue"
  label : Option String := none
  rir_field_names : Option (List String) := none
  min_occurrences : Option Int := none
  max_occurrences : Option Int := none
  grid : Option JDict := none
  show_grid_by_default : Bool := false
  hidden : Bool := false
deriving Repr

/-- The runtime value of an element of `Section.children`: the dataclass
annotation is `list[Datapoint | Multivalue | Tuple]`; Python does not
enforce annotations at construction, so a raw value is representable (the
dispatch loop of `Section.from_dict` also holds one transiently before
the `dacite` union check coerces it or raises). -/
inductive SectionChild where
  | dp (d : Datapoint) : SectionChild
  | mv (m : Multivalue) : SectionChild
  | tup (t : Tuple) : SectionChild
  | raw (j : Json) : SectionChild
deriving Repr

/-- The `Section` dataclass: a top-level group of schema nodes. -/
structure Section where
  id : String
  children : List SectionChild := []
  category : String := "section"
  label : Option String := none
  icon : Option String := none
deriving Repr

/-- The `Schema` dataclass. -/
structure Schema where
  id : Int
  name : Option String := none
  queues : List String := []
  url : Option String := none
  content : List Section := []
  metadata : JDict := []
  modified_by : Option String := none
  modified_at : Option String := none
deriving Repr

/-! ## Field extraction (model of `dacite.from_dict`)

`dacite` is an external dependency whose source is not part of this
repository; its call `dacite.from_dict(cls, data)` is modelled by its
documented contract: every declared field of the dataclass is read from
the dict when its key is present (with a runtime type check against the
field annotation) and takes the dataclass default when the key is absent;
a missing required field or an ill-typed value raises a dacite error.
Already-constructed dataclass instances prepared by the surrounding
`from_dict` code pass the field type check unchanged; a value left raw by
a dispatch loop is checked against the union annotation of the `children`
field: with the default `check_types=True` config, `dacite` builds the
first union member that accepts a dict value and raises `UnionMatchError`
when no member matches (so a raw value never survives into a successfully
returned object). -/

/-- Read a required dataclass field from the dict: absent key raises
`MissingValueError`. -/
def reqField (d : JDict) (k : String) (p : Json → Except DeserErr α) :
    Except DeserErr α :=
  match dget d k with
  | none => .error .daciteError
  | some v => p v

/-- Read an optional dataclass field from the dict, falling back to the
dataclass default when the key is absent. -/
def optField (d : JDict) (k : String) (p : Json → Except DeserErr α) (default : α) :
    Except DeserErr α :=
  match dget d k with
  | none => .ok default
  | some v => p v

/-- Type-checked read of a `str` field. -/
def parseString : Json → Except DeserErr String
  | .str s => .ok s
  | _ => .error .daciteError

/-- Type-checked read of a `str | None` field. -/
def parseOptString : Json → Except DeserErr (Option String)
  | .null => .ok none
  | .str s => .ok (some s)
  | _ => .error .daciteError

/-- Type-checked read of a `bool` field. -/
def parseBool : Json → Except DeserErr Bool
  | .bool b => .ok b
  | _ => .error .daciteError

/-- Type-checked read of an `int` field. -/
def parseInt : Json → Except DeserErr Int
  | .int n => .ok n
  | _ => .error .daciteError

/-- Type-checked read of an `int | None` field. -/
def parseOptInt : Json → Except DeserErr (Option Int)
  | .null => .ok none
  | .int n => .ok (some n)
  | _ => .error .daciteError

/-- Type-checked read of a `float | None` field. -/
def parseOptFloat : Json → Except DeserErr (Option Rat)
  | .null => .ok none
  | .float q => .ok (some q)
  | _ => .error .daciteError

/-- Type-checked read of a `list[str]` field. -/
def parseStringList : Json → Except DeserErr (List String)
  | .arr xs => eachE parseString xs
  | _ => .error .daciteError

/-- Type-checked read of a `list[str] | None` field. -/
def parseOptStringList : Json → Except DeserErr (Option (List String))
  | .null => .ok none
  | .arr xs => (eachE parseString xs).map some
  | _ => .error .daciteError

/-- Type-checked read of a `dict` field. -/
def parseDict : Json → Except DeserErr JDict
  | .obj kvs => .ok kvs
  | _ => .error .daciteError

/-- Type-checked read of a `dict | None` field. -/
def parseOptDict : Json → Except DeserErr (Option JDict)
  | .null => .ok none
  | .obj kvs => .ok (some kvs)
  | _ => .error .daciteError

/-- Type-checked read of a `list[dict] | None` field. -/
def parseOptDictList : Json → Except DeserErr (Option (List JDict))
  | .null => .ok none
  | .arr xs => (eachE parseDict xs).map some
  | _ => .error .daciteError

/-- Type-checked read of the `Literal[...] | None` field `Datapoint.type`:
a string outside the literal alternatives is rejected. -/
def parseOptDPType : Json → Except DeserErr (Option DPType)
  | .null => .ok none
  | .str s =>
    match DPType.ofTag s with
    | some t => .ok (some t)
    | none => .error .daciteError
  | _ => .error .daciteError

/-! ## `from_dict` deserialization (`rossum_api/models/schema.py`) -/

/-- `Datapoint.from_dict`: `dacite.from_dict(Datapoint, data)` with no
preprocessing of its own. -/
def Datapoint.from_dict (j : Json) : Except DeserErr Datapoint := do
  match j with
  | .obj d =>
    let id ← reqField d "id" parseString
    let type ← optField d "type" parseOptDPType none
    let label ← optField d "label" parseOptString none
    let description ← optField d "description" parseOptString none
    let category ← optField d "category" parseString "datapoint"
    let disable_prediction ← optField d "disable_prediction" parseBool false
    let hidden ← optField d "hidden" parseBool false
    let can_export ← optField d "can_export" parseBool true
    let can_collapse ← optField d "can_collapse" parseBool false
    let rir_field_names ← optField d "rir_field_names" parseOptStringList none
    let default_value ← optField d "default_value" parseOptString none
    let constraints ← optField d "constraints" parseDict []
    let score_threshold ← optField d "score_threshold" parseOptFloat none
    let options ← optField d "options" parseOptDictList none
    let ui_configuration ← optField d "ui_configuration" parseOptDict none
    let width ← optField d "width" parseOptInt none
    let stretch ← optField d "stretch" parseBool false
    let width_chars ← optField d "width_chars" parseOptInt none
    let formula ← optField d "formula" parseOptString none
    let prompt ← optField d "prompt" parseOptString none
    let context ← optField d "context" parseOptStringList none
    return { id := id, type := type, label := label, description := description,
             category := category, disable_prediction := disable_prediction,
             hidden := hidden, can_export := can_export, can_collapse := can_collapse,
             rir_field_names := rir_field_names, default_value := default_value,
             constraints := constraints, score_threshold := score_threshold,
             options := options, ui_configuration := ui_configuration,
             width := width, stretch := stretch, width_chars := width_chars,
             formula := formula, prompt := prompt, context := context }
  | _ => .error .daciteError

/-- The `dacite.from_dict(Tuple, data)` step of `Tuple.from_dict`, with
the already-parsed children. -/
def Tuple.buildFields (d : JDict) (children : List Datapoint) :
    Except DeserErr Tuple := do
  let id ← reqField d "id" parseString
  let category ← optField d "category" parseString "tuple"
  let label ← optField d "label" parseOptString none
  let disable_prediction ← optField d "disable_prediction" parseBool false
  let hidden ← optField d "hidden" parseBool false
  let rir_field_names ← optField d "rir_field_names" parseOptStringList none
  return { id := id, children := children, category := category, label := label,
           disable_prediction := disable_prediction, hidden := hidden,
           rir_field_names := rir_field_names }

/-- `Tuple.from_dict`: pops `"children"` (default `[]`) and parses every
element with `Datapoint.from_dict` (no category dispatch), then builds the
remaining fields from the dict. -/
def Tuple.from_dict (j : Json) : Except DeserErr Tuple := do
  match j with
  | .obj d =>
    let childrenData := (dget d "children").getD (.arr [])
    match childrenData with
    | .arr elems => do
      let children ← eachE Datapoint.from_dict elems
      Tuple.buildFields d children
    | _ => .error .typeError
  | _ => .error .typeError

/-- `dacite.from_dict(Tuple, data)` with no preprocessing: the generic
build `dacite` performs when a union annotation tries the `Tuple` member
on a raw dict — `id` and `children` are required, each element of
`children` must itself build as a `Datapoint`. -/
def Tuple.daciteBuild (j : Json) : Except DeserErr Tuple := do
  match j with
  | .obj d =>
    match dget d "children" with
    | some (.arr elems) => do
      let children ← eachE Datapoint.from_dict elems
      Tuple.buildFields d children
    | some _ => .error .daciteError
    | none => .error .daciteError
  | _ => .error .daciteError

/-- The `dacite` union check of the `Multivalue.children` value against
its annotation `Datapoint | Tuple`: an already-constructed instance is
stored unchanged; a raw value is built as the first union member that
accepts it (`Datapoint`, then `Tuple`), and raises `UnionMatchError`
(default `check_types=True`) when no member matches — a raw value never
survives the check. -/
def MVChild.daciteCheck : MVChild → Except DeserErr MVChild
  | .dp d => .ok (.dp d)
  | .tup t => .ok (.tup t)
  | .raw j =>
    match Datapoint.from_dict j with
    | .ok d => .ok (.dp d)
    | .error _ =>
      match Tuple.daciteBuild j with
      | .ok t => .ok (.tup t)
      | .error _ => .error .daciteError

/-- The child-dispatch step of `Multivalue.from_dict`: a dict child with
category `"tuple"` is parsed as a `Tuple`, with category `"datapoint"` as
a `Datapoint`, and any other child (a dict with another or no category, or
a non-dict value) is kept as the raw value. -/
def Multivalue.parseChild (j : Json) : Except DeserErr MVChild :=
  match j with
  | .obj kvs =>
    match dget kvs "category" with
    | some (.str c) =>
      if c = "tuple" then (Tuple.from_dict (.obj kvs)).map .tup
      else if c = "datapoint" then (Datapoint.from_dict (.obj kvs)).map .dp
      else .ok (.raw (.obj kvs))
    | _ => .ok (.raw (.obj kvs))
  | v => .ok (.raw v)

/-- The `dacite.from_dict(Multivalue, data)` step of
`Multivalue.from_dict`, with the already-dispatched child: the prepared
`children` value is checked against its union annotation, the remaining
fields are read from the dict. -/
def Multivalue.buildFields (d : JDict) (children : MVChild) :
    Except DeserErr Multivalue := do
  let children ← MVChild.daciteCheck children
  let id ← reqField d "id" parseString
  let category ← optField d "category" parseString "multivalue"
  let label ← optField d "label" parseOptString none
  let rir_field_names ← optField d "rir_field_names" parseOptStringList none
  let min_occurrences ← optField d "min_occurrences" parseOptInt none
  let max_occurrences ← optField d "max_occurrences" parseOptInt none
  let grid ← optField d "grid" parseOptDict none
  let show_grid_by_default ← optField d "show_grid_by_default" parseBool false
  let hidden ← optField d "hidden" parseBool false
  return { id := id, children := children, category := category, label := label,
           rir_field_names := rir_field_names, min_occurrences := min_occurrences,
           max_occurrences := max_occurrences, grid := grid,
           show_grid_by_default := show_grid_by_default, hidden := hidden }

/-- `Multivalue.from_dict`: pops `"children"` (default `None`, i.e. the
field stays missing and the build fails when the key is absent or its
value is `None`), dispatches the single child by category, then builds the
remaining fields from the dict. -/
def Multivalue.from_dict (j : Json) : Except DeserErr Multivalue := do
  match j with
  | .obj d =>
    match dget d "children" with
    | none => .error .daciteError
    | some .null => .error .daciteError
    | some childrenData => do
      let children ← Multivalue.parseChild childrenData
      Multivalue.buildFields d children
  | _ => .error .typeError

/-- `dacite.from_dict(Multivalue, data)` with no preprocessing: the
generic build `dacite` performs when a union annotation tries the
`Multivalue` member on a raw dict — the required `children` value is
itself checked against `Datapoint | Tuple`. -/
def Multivalue.daciteBuild (j : Json) : Except DeserErr Multivalue := do
  match j with
  | .obj d =>
    match dget d "children" with
    | none => .error .daciteError
    | some cj => Multivalue.buildFields d (.raw cj)
  | _ => .error .daciteError

/-- The `dacite` union check of a `Section.children` element against the
annotation `list[Datapoint | Multivalue | Tuple]`: an already-constructed
instance is stored unchanged; a raw value is built as the first union
member that accepts it (`Datapoint`, then `Multivalue`, then `Tuple`),
and raises `UnionMatchError` (default `check_types=True`) when no member
matches — a raw value never survives the check. -/
def SectionChild.daciteCheck : SectionChild → Except DeserErr SectionChild
  | .dp d => .ok (.dp d)
  | .mv m => .ok (.mv m)
  | .tup t => .ok (.tup t)
  | .raw j =>
    match Datapoint.from_dict j with
    | .ok d => .ok (.dp d)
    | .error _ =>
      match Multivalue.daciteBuild j with
      | .ok m => .ok (.mv m)
      | .error _ =>
        match Tuple.daciteBuild j with
        | .ok t => .ok (.tup t)
        | .error _ => .error .daciteError

/-- The child-dispatch step of `Section.from_dict`: a non-dict child is
kept as the raw value; a dict child is dispatched on its `"category"` to
`Datapoint.from_dict`, `Multivalue.from_dict` or `Tuple.from_dict`, and
kept as the raw value when the category is none of the three. -/
def Section.parseChild (j : Json) : Except DeserErr SectionChild :=
  match j with
  | .obj kvs =>
    match dget kvs "category" with
    | some (.str c) =>
      if c = "datapoint" then (Datapoint.from_dict (.obj kvs)).map .dp
      else if c = "multivalue" then (Multivalue.from_dict (.obj kvs)).map .mv
      else if c = "tuple" then (Tuple.from_dict (.obj kvs)).map .tup
      else .ok (.raw (.obj kvs))
    | _ => .ok (.raw (.obj kvs))
  | v => .ok (.raw v)

/-- The `dacite.from_dict(Section, data)` step of `Section.from_dict`,
with the already-dispatched children: each prepared child is checked
against the union annotation, the remaining fields are read from the
dict. -/
def Section.buildFields (d : JDict) (children : List SectionChild) :
    Except DeserErr Section := do
  let children ← eachE SectionChild.daciteCheck children
  let id ← reqField d "id" parseString
  let category ← optField d "category" parseString "section"
  let label ← optField d "label" parseOptString none
  let icon ← optField d "icon" parseOptString none
  return { id := id, children := children, category := category, label := label,
           icon := icon }

/-- `Section.from_dict`: pops `"children"` (default `[]`), dispatches each
child by category, then builds the remaining fields from the dict. -/
def Section.from_dict (j : Json) : Except DeserErr Section := do
  match j with
  | .obj d =>
    let childrenData := (dget d "children").getD (.arr [])
    match childrenData with
    | .arr elems => do
      let children ← eachE Section.parseChild elems
      Section.buildFields d children
    | _ => .error .typeError
  | _ => .error .typeError

/-- The `dacite.from_dict(Schema, data)` step of `Schema.from_dict`, with
the already-parsed content. -/
def Schema.buildFields (d : JDict) (content : List Section) :
    Except DeserErr Schema := do
  let id ← reqField d "id" parseInt
  let name ← optField d "name" parseOptString none
  let queues ← optField d "queues" parseStringList []
  let url ← optField d "url" parseOptString none
  let metadata ← optField d "metadata" parseDict []
  let modified_by ← optField d "modified_by" parseOptString none
  let modified_at ← optField d "modified_at" parseOptString none
  return { id := id, name := name, queues := queues, url := url,
           content := content, metadata := metadata,
           modified_by := modified_by, modified_at := modified_at }

/-- `Schema.from_dict`: pops `"content"` (default `[]`), parses every
element with `Section.from_dict`, then builds the remaining fields from
the dict. -/
def Schema.from_dict (j : Json) : Except DeserErr Schema := do
  match j with
  | .obj d =>
    let contentData := (dget d "content").getD (.arr [])
    match contentData with
    | .arr elems => do
      let content ← eachE Section.from_dict elems
      Schema.buildFields d content
    | _ => .error .typeError
  | _ => .error .typeError

/-! ## `dataclasses.asdict` serialization

`dataclasses.asdict` recursively converts dataclass instances into dicts
(field order = declaration order) and copies lists and dicts; `None`
becomes `null`, leaf values are kept. -/

/-- `asdict` image of a `str | None` leaf. -/
def jOptStr : Option String → Json
  | none => .null
  | some s => .str s

/-- `asdict` image of a `list[str] | None` leaf. -/
def jOptStrList : Option (List String) → Json
  | none => .null
  | some xs => .arr (xs.map .str)

/-- `asdict` image of an `int | None` leaf. -/
def jOptInt : Option Int → Json
  | none => .null
  | some n => .int n

/-- `asdict` image of a `float | None` leaf. -/
def jOptFloat : Option Rat → Json
  | none => .null
  | some q => .float q

/-- `asdict` image of a `dict | None` leaf. -/
def jOptDict : Option JDict → Json
  | none => .null
  | some d => .obj d

/-- `asdict` image of a `list[dict] | None` leaf. -/
def jOptDictList : Option (List JDict) → Json
  | none => .null
  | some ds => .arr (ds.map .obj)

/-- `asdict` image of the `Literal[...] | None` field `Datapoint.type`. -/
def jOptDPType : Option DPType → Json
  | none => .null
  | some t => .str t.tag

/-- `dataclasses.asdict` applied to a `Datapoint`. -/
def Datapoint.asdict (d : Datapoint) : Json :=
  .obj [("id", .str d.id), ("type", jOptDPType d.type), ("label", jOptStr d.label),
        ("description", jOptStr d.description), ("category", .str d.category),
        ("disable_prediction", .bool d.disable_prediction), ("hidden", .bool d.hidden),
        ("can_export", .bool d.can_export), ("can_collapse", .bool d.can_collapse),
        ("rir_field_names", jOptStrList d.rir_field_names),
        ("default_value", jOptStr d.default_value), ("constraints", .obj d.constraints),
        ("score_threshold", jOptFloat d.score_threshold),
        ("options", jOptDictList d.options),
        ("ui_configuration", jOptDict d.ui_configuration), ("width", jOptInt d.width),
        ("stretch", .bool d.stretch), ("width_chars", jOptInt d.width_chars),
        ("formula", jOptStr d.formula), ("prompt", jOptStr d.prompt),
        ("context", jOptStrList d.context)]

/-- `dataclasses.asdict` applied to a `Tuple`. -/
def Tuple.asdict (t : Tuple) : Json :=
  .obj [("id", .str t.id), ("children", .arr (t.children.map Datapoint.asdict)),
        ("category", .str t.category), ("label", jOptStr t.label),
        ("disable_prediction", .bool t.disable_prediction), ("hidden", .bool t.hidden),
        ("rir_field_names", jOptStrList t.rir_field_names)]

/-- `dataclasses.asdict` applied to the `Multivalue.children` value: model
instances become dicts, a raw value is copied. -/
def MVChild.asdict : MVChild → Json
  | .dp d => d.asdict
  | .tup t => t.asdict
  | .raw j => j

/-- `dataclasses.asdict` applied to a `Multivalue`. -/
def Multivalue.asdict (m : Multivalue) : Json :=
  .obj [("id", .str m.id), ("children", m.children.asdict),
        ("category", .str m.category), ("label", jOptStr m.label),
        ("rir_field_names", jOptStrList m.rir_field_names),
        ("min_occurrences", jOptInt m.min_occurrences),
        ("max_occurrences", jOptInt m.max_occurrences), ("grid", jOptDict m.grid),
        ("show_grid_by_default", .bool m.show_grid_by_default),
        ("hidden", .bool m.hidden)]

/-- `dataclasses.asdict` applied to a `Section.children` element. -/
def SectionChild.asdict : SectionChild → Json
  | .dp d => d.asdict
  | .mv m => m.asdict
  | .tup t => t.asdict
  | .raw j => j

/-- `dataclasses.asdict` applied to a `Section`. -/
def Section.asdict (s : Section) : Json :=
  .obj [("id", .str s.id), ("children", .arr (s.children.map SectionChild.asdict)),
        ("category", .str s.category), ("label", jOptStr s.label),
        ("icon", jOptStr s.icon)]

/-- `dataclasses.asdict` applied to a `Schema`. -/
def Schema.asdict (s : Schema) : Json :=
  .obj [("id", .int s.id), ("name", jOptStr s.name),
        ("queues", .arr (s.queues.map .str)), ("url", jOptStr s.url),
        ("content", .arr (s.content.map Section.asdict)),
        ("metadata", .obj s.metadata), ("modified_by", jOptStr s.modified_by),
        ("modified_at", jOptStr s.modified_at)]

/-! ## Traversal (`traverse`, `get_by_id`) -/

/-- A node yielded by `traverse`: the traversal yields only `Datapoint`,
`Multivalue` and `Tuple` nodes (never a `Section` or the `Schema`). -/
inductive SchemaNode where
  | dp (d : Datapoint) : SchemaNode
  | mv (m : Multivalue) : SchemaNode
  | tup (t : Tuple) : SchemaNode
deriving Repr

/-- `node.id` of a traversed node. -/
def SchemaNode.nodeId : SchemaNode → String
  | .dp d => d.id
  | .mv m => m.id
  | .tup t => t.id

/-- Whether a traversed node is a button datapoint. -/
def SchemaNode.isButton : SchemaNode → Bool
  | .dp d => d.is_button
  | _ => false

/-- `Datapoint.traverse`: yields nothing for a button datapoint when
`ignore_buttons`, otherwise yields the datapoint itself. -/
def Datapoint.traverse (d : Datapoint) (ignore_buttons : Bool := true) :
    List SchemaNode :=
  if ignore_buttons && d.is_button then [] else [.dp d]

/-- `Tuple.traverse`: yields the tuple, then traverses each child. -/
def Tuple.traverse (t : Tuple) (ignore_buttons : Bool := true) : List SchemaNode :=
  .tup t :: t.children.flatMap (fun c => c.traverse ignore_buttons)

/-- Traversal of the `Multivalue.children` value.  A raw (non-model)
child has no `traverse` method, which raises `AttributeError` in Python;
this is modelled by `none`. -/
def MVChild.traverse : MVChild → Bool → Option (List SchemaNode)
  | .dp d, ignore_buttons => some (d.traverse ignore_buttons)
  | .tup t, ignore_buttons => some (t.traverse ignore_buttons)
  | .raw _, _ => none

/-- `Multivalue.traverse`: yields the multivalue, then traverses its
child. -/
def Multivalue.traverse (m : Multivalue) (ignore_buttons : Bool := true) :
    Option (List SchemaNode) :=
  (m.children.traverse ignore_buttons).map (fun l => .mv m :: l)

/-- Traversal of a `Section.children` element (raw children raise,
modelled by `none`). -/
def SectionChild.traverse : SectionChild → Bool → Option (List SchemaNode)
  | .dp d, ignore_buttons => some (d.traverse ignore_buttons)
  | .mv m, ignore_buttons => m.traverse ignore_buttons
  | .tup t, ignore_buttons => some (t.traverse ignore_buttons)
  | .raw _, _ => none

/-- `Section.traverse`: yields nothing for the section itself, traverses
each child in order. -/
def Section.traverse (s : Section) (ignore_buttons : Bool := true) :
    Option (List SchemaNode) :=
  (eachO (fun c => c.traverse ignore_buttons) s.children).map List.flatten

/-- `Schema.traverse`: traverses each section of `content` in order.  An
error raised mid-iteration in Python is modelled eagerly as `none`. -/
def Schema.traverse (s : Schema) (ignore_buttons : Bool := true) :
    Option (List SchemaNode) :=
  (eachO (fun sec => sec.traverse ignore_buttons) s.content).map List.flatten

/-- `Schema.get_by_id`: scans the traversal for the first node whose `id`
equals `node_id`, returning `None` when there is none.  The outer `Option`
models a traversal error (raw children); the inner one is the Python
return value. -/
def Schema.get_by_id (s : Schema) (node_id : String) (ignore_buttons : Bool := true) :
    Option (Option SchemaNode) :=
  (s.traverse ignore_buttons).map (fun nodes => nodes.find? (fun n => n.nodeId == node_id))

/-! ## Well-formedness predicates -/

/-- True when the `Multivalue.children` value is a model instance (not a
raw payload value), recursively. -/
def MVChild.isModel : MVChild → Bool
  | .dp _ => true
  | .tup _ => true
  | .raw _ => false

/-- True when a `Section.children` element is a model instance (not a raw
payload value), recursively. -/
def SectionChild.isModel : SectionChild → Bool
  | .dp _ => true
  | .mv m => m.children.isModel
  | .tup _ => true
  | .raw _ => false

/-- True when all children of all sections are model instances. -/
def Section.isModel (s : Section) : Bool := s.children.all SectionChild.isModel

/-- True when the schema tree is built entirely from the model classes
(no raw payload children anywhere). -/
def Schema.isModel (s : Schema) : Bool := s.content.all Section.isModel

/-! ## Rule action model (`rossum_api/models/rule.py`) -/

/-- The `Literal` type `ShowMessageType = "error" | "warning" | "info"`. -/
inductive ShowMessageType where
  | error | warning | info
deriving Repr, DecidableEq

/-- Payload tag of a `ShowMessageType` literal. -/
def ShowMessageType.tag : ShowMessageType → String
  | .error => "error"
  | .warning => "warning"
  | .info => "info"

/-- The `Literal` type
`ChangeStatusMethod = "postpone" | "export" | "delete" | "confirm" | "reject"`. -/
inductive ChangeStatusMethod where
  | postpone | «export» | delete | confirm | reject
deriving Repr, DecidableEq

/-- Payload tag of a `ChangeStatusMethod` literal. -/
def ChangeStatusMethod.tag : ChangeStatusMethod → String
  | .postpone => "postpone"
  | .export => "export"
  | .delete => "delete"
  | .confirm => "confirm"
  | .reject => "reject"

/-- Type-checked read of a `ShowMessageType` field. -/
def parseShowMessageType : Json → Except DeserErr ShowMessageType
  | .str "error" => .ok .error
  | .str "warning" => .ok .warning
  | .str "info" => .ok .info
  | _ => .error .daciteError

/-- Type-checked read of a `ChangeStatusMethod` field. -/
def parseChangeStatusMethod : Json → Except DeserErr ChangeStatusMethod
  | .str "postpone" => .ok .postpone
  | .str "export" => .ok .export
  | .str "delete" => .ok .delete
  | .str "confirm" => .ok .confirm
  | .str "reject" => .ok .reject
  | _ => .error .daciteError

/-- The `ShowMessagePayload` dataclass. -/
structure ShowMessagePayload where
  type : ShowMessageType
  content : String
  schema_id : Option String := none
deriving Repr

/-- The `AddAutomationBlockerPayload` dataclass. -/
structure AddAutomationBlockerPayload where
  content : String
  schema_id : Option String := none
deriving Repr

/-- The `ChangeStatusPayload` dataclass. -/
structure ChangeStatusPayload where
  method : ChangeStatusMethod
deriving Repr

/-- The `ChangeQueuePayload` dataclass. -/
structure ChangeQueuePayload where
  queue_id : Int
  reimport : Option Bool := none
deriving Repr

/-- The `LabelsPayload` dataclass (aliased as `AddLabelPayload`,
`RemoveLabelPayload`, `AddRemoveLabelPayload`). -/
structure LabelsPayload where
  labels : List String := []
deriving Repr

/-- The `SchemaIdsPayload` dataclass (aliased as `ShowFieldPayload`,
`HideFieldPayload`, `ShowHideFieldPayload`). -/
structure SchemaIdsPayload where
  schema_ids : List String := []
deriving Repr

/-- The `AddValidationSourcePayload` dataclass. -/
structure AddValidationSourcePayload where
  schema_id : String
deriving Repr

/-- The `SendEmailPayload` dataclass. -/
structure SendEmailPayload where
  email_template : Option String := none
  attach_document : Bool := false
  «to» : List String := []
  subject : Option String := none
  body : Option String := none
  cc : List String := []
  bcc : List String := []
deriving Repr

/-- The `RuleActionPayload` union: one of the payload dataclasses, or the
raw payload dict for `"custom"` actions. -/
inductive RuleActionPayload where
  | showMessage (p : ShowMessagePayload) : RuleActionPayload
  | addAutomationBlocker (p : AddAutomationBlockerPayload) : RuleActionPayload
  | changeStatus (p : ChangeStatusPayload) : RuleActionPayload
  | changeQueue (p : ChangeQueuePayload) : RuleActionPayload
  | labels (p : LabelsPayload) : RuleActionPayload
  | schemaIds (p : SchemaIdsPayload) : RuleActionPayload
  | addValidationSource (p : AddValidationSourcePayload) : RuleActionPayload
  | sendEmail (p : SendEmailPayload) : RuleActionPayload
  | raw (j : Json) : RuleActionPayload
deriving Repr

/-- The payload dataclasses that can appear as values of
`_ACTION_TYPE_TO_PAYLOAD`. -/
inductive PayloadCls where
  | showMessage | addAutomationBlocker | changeStatus | changeQueue
  | labels | schemaIds | addValidationSource | sendEmail
deriving Repr, DecidableEq

/-- The module-level dict `_ACTION_TYPE_TO_PAYLOAD`: the fixed 13-entry
mapping from action type to payload dataclass (`None` for `"custom"`). -/
def ACTION_TYPE_TO_PAYLOAD : List (String × Option PayloadCls) :=
  [("show_message", some .showMessage),
   ("add_automation_blocker", some .addAutomationBlocker),
   ("change_status", some .changeStatus),
   ("change_queue", some .changeQueue),
   ("add_label", some .labels),
   ("remove_label", some .labels),
   ("add_remove_label", some .labels),
   ("show_field", some .schemaIds),
   ("hide_field", some .schemaIds),
   ("show_hide_field", some .schemaIds),
   ("add_validation_source", some .addValidationSource),
   ("send_email", some .sendEmail),
   ("custom", none)]

/-- `dacite.from_dict(ShowMessagePayload, data)`. -/
def ShowMessagePayload.from_dict (j : Json) : Except DeserErr ShowMessagePayload := do
  match j with
  | .obj d =>
    let type ← reqField d "type" parseShowMessageType
    let content ← reqField d "content" parseString
    let schema_id ← optField d "schema_id" parseOptString none
    return { type := type, content := content, schema_id := schema_id }
  | _ => .error .daciteError

/-- `dacite.from_dict(AddAutomationBlockerPayload, data)`. -/
def AddAutomationBlockerPayload.from_dict (j : Json) :
    Except DeserErr AddAutomationBlockerPayload := do
  match j with
  | .obj d =>
    let content ← reqField d "content" parseString
    let schema_id ← optField d "schema_id" parseOptString none
    return { content := content, schema_id := schema_id }
  | _ => .error .daciteError

/-- `dacite.from_dict(ChangeStatusPayload, data)`. -/
def ChangeStatusPayload.from_dict (j : Json) : Except DeserErr ChangeStatusPayload := do
  match j with
  | .obj d =>
    let method ← reqField d "method" parseChangeStatusMethod
    return { method := method }
  | _ => .error .daciteError

/-- `dacite.from_dict(ChangeQueuePayload, data)`. -/
def ChangeQueuePayload.from_dict (j : Json) : Except DeserErr ChangeQueuePayload := do
  match j with
  | .obj d =>
    let queue_id ← reqField d "queue_id" parseInt
    let reimport ← optField d "reimport"
      (fun v => match v with
        | .null => .ok none
        | .bool b => .ok (some b)
        | _ => .error .daciteError) none
    return { queue_id := queue_id, reimport := reimport }
  | _ => .error .daciteError

/-- `dacite.from_dict(LabelsPayload, data)`. -/
def LabelsPayload.from_dict (j : Json) : Except DeserErr LabelsPayload := do
  match j with
  | .obj d =>
    let labels ← optField d "labels" parseStringList []
    return { labels := labels }
  | _ => .error .daciteError

/-- `dacite.from_dict(SchemaIdsPayload, data)`. -/
def SchemaIdsPayload.from_dict (j : Json) : Except DeserErr SchemaIdsPayload := do
  match j with
  | .obj d =>
    let schema_ids ← optField d "schema_ids" parseStringList []
    return { schema_ids := schema_ids }
  | _ => .error .daciteError

/-- `dacite.from_dict(AddValidationSourcePayload, data)`. -/
def AddValidationSourcePayload.from_dict (j : Json) :
    Except DeserErr AddValidationSourcePayload := do
  match j with
  | .obj d =>
    let schema_id ← reqField d "schema_id" parseString
    return { schema_id := schema_id }
  | _ => .error .daciteError

/-- `dacite.from_dict(SendEmailPayload, data)`. -/
def SendEmailPayload.from_dict (j : Json) : Except DeserErr SendEmailPayload := do
  match j with
  | .obj d =>
    let email_template ← optField d "email_template" parseOptString none
    let attach_document ← optField d "attach_document" parseBool false
    let toList ← optField d "to" parseStringList []
    let subject ← optField d "subject" parseOptString none
    let body ← optField d "body" parseOptString none
    let cc ← optField d "cc" parseStringList []
    let bcc ← optField d "bcc" parseStringList []
    return { email_template := email_template, attach_document := attach_document,
             «to» := toList, subject := subject, body := body, cc := cc, bcc := bcc }
  | _ => .error .daciteError

/-- `dacite.from_dict(payload_cls, payload_data)` dispatched over the
payload dataclass resolved from the mapping. -/
def PayloadCls.build : PayloadCls → Json → Except DeserErr RuleActionPayload
  | .showMessage, j => (ShowMessagePayload.from_dict j).map .showMessage
  | .addAutomationBlocker, j => (AddAutomationBlockerPayload.from_dict j).map .addAutomationBlocker
  | .changeStatus, j => (ChangeStatusPayload.from_dict j).map .changeStatus
  | .changeQueue, j => (ChangeQueuePayload.from_dict j).map .changeQueue
  | .labels, j => (LabelsPayload.from_dict j).map .labels
  | .schemaIds, j => (SchemaIdsPayload.from_dict j).map .schemaIds
  | .addValidationSource, j => (AddValidationSourcePayload.from_dict j).map .addValidationSource
  | .sendEmail, j => (SendEmailPayload.from_dict j).map .sendEmail

/-- The `RuleAction` dataclass.  `from_dict` calls the plain dataclass
constructor, which performs no runtime type checks, so `id`, `event` and
`enabled` hold the raw dict values. -/
structure RuleAction where
  id : Json
  type : Json
  payload : RuleActionPayload
  event : Json
  enabled : Json
deriving Repr

/-- The conditional
`dacite.from_dict(payload_cls, payload_data) if payload_cls is not None
else payload_data` of `RuleAction.from_dict`. -/
def payloadOf : Option PayloadCls → Json → Except DeserErr RuleActionPayload
  | none, j => .ok (.raw j)
  | some pc, j => pc.build j

/-- `RuleAction.from_dict`: reads `data["type"]` (a missing key raises
`KeyError`), resolves the payload dataclass via
`_ACTION_TYPE_TO_PAYLOAD[action_type]` (an unknown or non-string type
raises `KeyError`), builds the payload from `data.get("payload", {})`
(kept raw for `"custom"`), then reads `data["id"]` and `data["event"]`
(missing keys raise `KeyError`) and defaults `enabled` to `True`. -/
def RuleAction.from_dict (j : Json) : Except DeserErr RuleAction := do
  match j with
  | .obj data =>
    let action_type ← match dget data "type" with
      | none => .error (.keyError "type")
      | some v => .ok v
    let payload_cls ← match action_type with
      | .str t =>
        match ACTION_TYPE_TO_PAYLOAD.lookup t with
        | some pc => .ok pc
        | none => .error (.keyError t)
      | _ => .error (.keyError "non-string type")
    let payload_data := (dget data "payload").getD (.obj [])
    let payload ← payloadOf payload_cls payload_data
    let id ← match dget data "id" with
      | none => .error (.keyError "id")
      | some v => .ok v
    let event ← match dget data "event" with
      | none => .error (.keyError "event")
      | some v => .ok v
    let enabled := (dget data "enabled").getD (.bool true)
    return { id := id, type := action_type, payload := payload, event := event,
             enabled := enabled }
  | _ => .error .typeError

/-! ## Polling loops (`poll_annotation`, `poll_task`)

The loops fetch the resource, test the predicate, and on failure sleep a
constant `sleep_s` and re-fetch, with no retry budget.  The stream of
fetched values is modelled by `fetch : Nat → _` (the value returned by the
i-th fetch); the loop is made total with fuel (the Python loop has no
bound of its own, so `none` models non-termination within the fuel). -/

/-- Observable events of one polling run. -/
inductive PollEvent (α : Type) where
  | fetched (v : α) : PollEvent α
  | slept (seconds : Int) : PollEvent α
deriving Repr

/-- The common sleep-and-recheck loop body: test the value fetched at
index `i`; on failure sleep `sleep_s` seconds and retry at `i + 1`. -/
def pollLoop (fetch : Nat → α) (p : α → Bool) (sleep_s : Int) :
    Nat → Nat → Option (List (PollEvent α) × α)
  | _, 0 => none
  | i, fuel + 1 =>
    let v := fetch i
    if p v then some ([.fetched v], v)
    else
      match pollLoop fetch p sleep_s (i + 1) fuel with
      | none => none
      | some (tr, r) => some (.fetched v :: .slept sleep_s :: tr, r)

/-- `AsyncRossumAPIClient.poll_annotation`: fetches the annotation JSON,
deserializes it, and polls until the predicate holds of the deserialized
value; when it does, sideloads are loaded once (modelled by `enrich`) and
the final JSON is deserialized again and returned. -/
def poll_annotation (fetch : Nat → J) (deser : J → α) (p : α → Bool)
    (enrich : J → J) (sleep_s : Int := 3) (sideloads : List String := [])
    (fuel : Nat := 0) : Option (List (PollEvent J) × α) :=
  match pollLoop fetch (fun j => p (deser j)) sleep_s 0 fuel with
  | none => none
  | some (tr, jFinal) =>
    let jOut := if sideloads.isEmpty then jFinal else enrich jFinal
    some (tr, deser jOut)

/-- `AsyncRossumAPIClient.poll_task`: retrieves the task and polls until
the predicate holds, returning the first satisfying task. -/
def poll_task (retrieve : Nat → τ) (p : τ → Bool) (sleep_s : Int := 3)
    (fuel : Nat := 0) : Option (List (PollEvent τ) × τ) :=
  pollLoop retrieve p sleep_s 0 fuel

/-! ## Concurrent upload fan-out (`import_document`, `upload_document`)

Both methods create one `asyncio` task per file and collect the results
with `asyncio.gather(*tasks)`, whose contract returns the results in the
order of its arguments regardless of completion order.  `gatherRun`
models an execution: tasks complete in an arbitrary `order`, each writing
its result into its own argument slot. -/

/-- Run the spawned tasks in completion order `order`, storing each
result at the task's argument position; a slot stays `none` only if its
task never completed (gather awaits all, so real runs are complete). -/
def gatherRun (tasks : List (Unit → α)) (order : List Nat) : List (Option α) :=
  order.foldl
    (fun slots i =>
      match tasks[i]? with
      | some t => slots.set i (some (t ()))
      | none => slots)
    (List.replicate tasks.length none)

/-- `AsyncRossumAPIClient.import_document`: fans out `_upload` (which
returns the created annotation id) over the files and gathers.  `upload`
abstracts `_upload` applied to the fixed `queue_id`, `values` and
`metadata`. -/
def import_document (upload : F → Int) (files : List F) (order : List Nat) :
    List (Option Int) :=
  gatherRun (files.map (fun f => fun _ => upload f)) order

/-- `AsyncRossumAPIClient.upload_document`: fans out `_create_upload`
(which returns the task response) over the files and gathers. -/
def upload_document (create_upload : F → τ) (files : List F) (order : List Nat) :
    List (Option τ) :=
  gatherRun (files.map (fun f => fun _ => create_upload f)) order

/-! ## Sideloading (`retrieve_annotation`, `_sideload`)

`_sideload` reads, for each requested sideload, the URL stored under the
singular-named field of the resource (`to_singular` lives in
`rossum_api/utils.py`, not under `src/`, and is kept abstract), fetches
all of them (the reads all see the original resource since the fetch
stage completes before any write), then replaces each field with the
fetched object, additionally unwrapping the `"content"` sideload. -/

/-- The inner `fetch_sideload` closure: look up the sideload URL in the
resource; a `None` URL yields `None` without a request, otherwise the URL
is fetched with `request_json("GET", url)` (abstracted by `http_get`).  A
missing field raises `KeyError`. -/
def fetch_sideload (resource : JDict) (to_singular : String → String)
    (http_get : Json → Json) (s : String) : Except DeserErr (Option Json) :=
  match dget resource (to_singular s) with
  | none => .error (.keyError (to_singular s))
  | some .null => .ok none
  | some url => .ok (some (http_get url))

/-- One iteration of the write loop of `_sideload`: store the fetched
JSON under the singular field, unwrapping `sideloaded_json["content"]`
for the `"content"` sideload (a non-dict or `content`-less value raises). -/
def sideloadWrite (to_singular : String → String) (resource : JDict)
    (s : String) (fetched : Option Json) : Except DeserErr JDict :=
  match fetched with
  | none => .ok (dset resource (to_singular s) .null)
  | some v =>
    if s = "content" then
      match v with
      | .obj kvs =>
        match dget kvs "content" with
        | some inner => .ok (dset resource (to_singular s) inner)
        | none => .error (.keyError "content")
      | _ => .error .typeError
    else .ok (dset resource (to_singular s) v)

/-- `AsyncRossumAPIClient._sideload`: fetch every requested sideload from
the original resource, then write them back field by field. -/
def sideloadAll (to_singular : String → String) (http_get : Json → Json)
    (resource : JDict) (sideloads : List String) : Except DeserErr JDict := do
  let fetched ← eachE (fetch_sideload resource to_singular http_get) sideloads
  (sideloads.zip fetched).foldlM
    (fun res sv => sideloadWrite to_singular res sv.1 sv.2) resource

/-- `AsyncRossumAPIClient.retrieve_annotation`: fetch the annotation,
sideload in place when `sideloads` is non-empty, deserialize. -/
def retrieve_annotation (fetch_one : Int → JDict) (deser : JDict → α)
    (to_singular : String → String) (http_get : Json → Json)
    (annotation_id : Int) (sideloads : List String := []) : Except DeserErr α := do
  let annotation_json := fetch_one annotation_id
  if sideloads.isEmpty then
    return deser annotation_json
  else do
    let enriched ← sideloadAll to_singular http_get annotation_json sideloads
    return deser enriched

/-! ## Retry with exponential backoff (spec-modelled)

The retry wrapper lives in `InternalAsyncClient`
(`rossum_api/clients/internal_async_client.py`), which is not under
`src/`; only its configuration surface appears in
`AsyncRossumAPIClient.__init__`. -/

/-- Observable events of one retried request. -/
inductive RetryEvent where
  | attempt (i : Nat) : RetryEvent
  | waited (d : Rat) : RetryEvent
deriving Repr

/-- Modelled from the spec: the delay before the retry following failed
attempt `i` — exponential backoff multiplied by `retry_backoff_factor`
plus a random jitter (the random draw is abstracted as `jitter i`), per
"computes delay with exponential backoff and jitter" and the `__init__`
parameter docs for `retry_backoff_factor` and `retry_max_jitter`. -/
def backoffDelay (retry_backoff_factor : Rat) (jitter : Nat → Rat) (i : Nat) : Rat :=
  retry_backoff_factor * 2 ^ i + jitter i

/-- Modelled from the spec: the bounded retry loop of the missing
`InternalAsyncClient` — attempt the request; on a transient failure with
retries remaining, wait the backoff delay and retry; once the retries are
exhausted, raise the last exception ("retries a bounded number of times
on transient failures", "`n_retries`: number of request retries before
raising an exception"). -/
def retryLoop (attempt : Nat → Except ε α) (retry_backoff_factor : Rat)
    (jitter : Nat → Rat) : Nat → Nat → List RetryEvent × Except ε α
  | i, remaining =>
    match attempt i with
    | .ok a => ([.attempt i], .ok a)
    | .error e =>
      match remaining with
      | 0 => ([.attempt i], .error e)
      | r + 1 =>
        let rest := retryLoop attempt retry_backoff_factor jitter (i + 1) r
        (.attempt i :: .waited (backoffDelay retry_backoff_factor jitter i) :: rest.1,
         rest.2)

/-- Modelled from the spec: a request through the retrying transport with
`n_retries` retries after the initial attempt. -/
def retryRequest (attempt : Nat → Except ε α) (n_retries : Nat)
    (retry_backoff_factor : Rat) (jitter : Nat → Rat) :
    List RetryEvent × Except ε α :=
  retryLoop attempt retry_backoff_factor jitter 0 n_retries

/-! ## Pagination (spec-modelled)

`fetch_all` / `fetch_all_by_url` of `InternalAsyncClient` are not under
`src/`.  Modelled from the spec: "Pagination iterator: repeatedly
requests next pages and yields individual JSON records lazily until
exhausted". -/

/-- One page of a paginated listing: its records and the URL of the next
page, `none` on the last page. -/
structure Page where
  results : List Json
  next : Option String

/-- Observable events of consuming one paginated listing. -/
inductive PageEvent where
  | requested (url : String) : PageEvent
  | yielded (record : Json) : PageEvent
deriving Repr

/-- Modelled from the spec: the pagination engine behind
`request_paginated` and every `list_*` method — request the page at
`url`, yield its records one at a time, then follow the `next` link until
a page has none.  `getPage` abstracts one HTTP page request; fuel makes
the chain-following total (`none` models a next-chain longer than the
fuel, i.e. non-termination). -/
def fetch_all_by_url (getPage : String → Page) :
    String → Nat → Option (List PageEvent)
  | _, 0 => none
  | url, fuel + 1 =>
    let page := getPage url
    let events := PageEvent.requested url :: page.results.map PageEvent.yielded
    match page.next with
    | none => some events
    | some nextUrl =>
      match fetch_all_by_url getPage nextUrl fuel with
      | none => none
      | some rest => some (events ++ rest)

/-- `AsyncRossumAPIClient.request_paginated`: delegates to the pagination
engine unchanged. -/
def request_paginated (getPage : String → Page) (url : String) (fuel : Nat) :
    Option (List PageEvent) :=
  fetch_all_by_url getPage url fuel

/-- The records yielded by a trace, in order. -/
def yieldedRecords (events : List PageEvent) : List Json :=
  events.filterMap (fun e => match e with | .yielded r => some r | _ => none)

/-- `AsyncRossumAPIClient.list_queues`: iterates the paginated listing of
queues and yields each record deserialized (`deser` abstracts
`self._deserializer(Resource.Queue, ·)`; `url` abstracts the queues
listing URL built from the ordering and filters). -/
def list_queues (getPage : String → Page) (deser : Json → α) (url : String)
    (fuel : Nat) : Option (List α) :=
  (fetch_all_by_url getPage url fuel).map (fun evs => (yieldedRecords evs).map deser)

/-! ## Pre-order node enumeration (specification side for the traversal
claims): the `Datapoint`, `Multivalue` and `Tuple` nodes reachable from a
schema in depth-first pre-order, parents before children, with no button
filtering. -/

/-- Pre-order nodes of a tuple: the tuple, then its datapoints. -/
def Tuple.nodeList (t : Tuple) : List SchemaNode :=
  .tup t :: t.children.map .dp

/-- Pre-order nodes reachable through a multivalue child. -/
def MVChild.nodeList : MVChild → List SchemaNode
  | .dp d => [.dp d]
  | .tup t => t.nodeList
  | .raw _ => []

/-- Pre-order nodes of a multivalue: the multivalue, then its child. -/
def Multivalue.nodeList (m : Multivalue) : List SchemaNode :=
  .mv m :: m.children.nodeList

/-- Pre-order nodes reachable through a section child. -/
def SectionChild.nodeList : SectionChild → List SchemaNode
  | .dp d => [.dp d]
  | .mv m => m.nodeList
  | .tup t => t.nodeList
  | .raw _ => []

/-- Pre-order nodes of a section (the section itself is not a node). -/
def Section.nodeList (s : Section) : List SchemaNode :=
  s.children.flatMap SectionChild.nodeList

/-- Pre-order nodes of a schema. -/
def Schema.nodeList (s : Schema) : List SchemaNode :=
  s.content.flatMap Section.nodeList

/-- Drop button datapoints when `ib` is true. -/
def buttonFilter (ib : Bool) (l : List SchemaNode) : List SchemaNode :=
  if ib then l.filter (fun n => !n.isButton) else l

/-! ## Default-category predicates (the "built from the model classes
with their default category tags" hypothesis of the round-trip claim) -/

/-- The datapoint carries its default category tag. -/
def Datapoint.defaultTag (d : Datapoint) : Bool := d.category = "datapoint"

/-- The tuple and its datapoints carry their default category tags. -/
def Tuple.defaultTags (t : Tuple) : Bool :=
  t.category = "tuple" && t.children.all Datapoint.defaultTag

/-- The multivalue child is a model instance with default tags. -/
def MVChild.defaultTags : MVChild → Bool
  | .dp d => d.defaultTag
  | .tup t => t.defaultTags
  | .raw _ => false

/-- The multivalue and its child carry their default category tags. -/
def Multivalue.defaultTags (m : Multivalue) : Bool :=
  m.category = "multivalue" && m.children.defaultTags

/-- The section child is a model instance with default tags. -/
def SectionChild.defaultTags : SectionChild → Bool
  | .dp d => d.defaultTag
  | .mv m => m.defaultTags
  | .tup t => t.defaultTags
  | .raw _ => false

/-- The section and all nodes under it carry their default tags. -/
def Section.defaultTags (s : Section) : Bool :=
  s.category = "section" && s.children.all SectionChild.defaultTags

/-- The schema is built from the model classes with default category
tags throughout. -/
def Schema.defaultTags (s : Schema) : Bool :=
  s.content.all Section.defaultTags

/-! ## Expected polling trace -/

/-- The expected event trace of a poll whose first satisfying fetch is
`n` steps after start index `i`: a fetch, then alternating constant
sleeps and fetches. -/
def pollTraceFrom (fetch : Nat → α) (sleep_s : Int) : Nat → Nat → List (PollEvent α)
  | i, 0 => [.fetched (fetch i)]
  | i, n + 1 => .fetched (fetch i) :: .slept sleep_s :: pollTraceFrom fetch sleep_s (i + 1) n

/-- Count of sleep events in a polling trace. -/
def sleepCount (tr : List (PollEvent α)) : Nat :=
  tr.countP (fun e => match e with | .slept _ => true | _ => false)

/-- Count of fetch events in a polling trace. -/
def fetchCount (tr : List (PollEvent α)) : Nat :=
  tr.countP (fun e => match e with | .fetched _ => true | _ => false)

/-! ## The value written by one sideload -/

/-- The value `_sideload` stores for sideload `s` given the fetched JSON:
`None` stays `None`, the `"content"` sideload is unwrapped to its inner
`"content"` list, anything else is stored as fetched. -/
def sideloadValue (s : String) (fetched : Option Json) : Except DeserErr Json :=
  match fetched with
  | none => .ok .null
  | some v =>
    if s = "content" then
      match v with
      | .obj kvs =>
        match dget kvs "content" with
        | some inner => .ok inner
        | none => .error (.keyError "content")
      | _ => .error .typeError
    else .ok v

/-- Count of attempt events in a retry trace. -/
def attemptCount (tr : List RetryEvent) : Nat :=
  tr.countP (fun e => match e with | .attempt _ => true | _ => false)

/-! ## Concrete inputs used by the witnesses -/

/-- A concrete datapoint. -/
def dpInvoice : Datapoint :=
  { id := "invoice_number", type := some .string, label := some "Invoice Number",
    rir_field_names := some ["document_id"], constraints := [("required", .bool true)] }

/-- A concrete button datapoint. -/
def dpBtn : Datapoint := { id := "button1", type := some .button }

/-- A concrete tuple. -/
def tupLine : Tuple :=
  { id := "line_item", label := some "Line Item",
    children := [{ id := "item_description", type := some .string }, dpBtn] }

/-- A concrete multivalue. -/
def mvLines : Multivalue :=
  { id := "line_items", children := .tup tupLine,
    rir_field_names := some ["line_items"], min_occurrences := some 0,
    max_occurrences := some 1000 }

/-- A concrete section. -/
def secInvoice : Section :=
  { id := "invoice_section", label := some "Invoice Details",
    children := [.dp dpInvoice, .dp dpBtn, .mv mvLines] }

/-- A concrete schema exercising every node kind and a button. -/
def schInvoice : Schema :=
  { id := 123456, name := some "Test Invoice Schema",
    queues := ["https://us.api.rossum.ai/v1/queues/12345"],
    url := some "https://us.api.rossum.ai/v1/schemas/123456",
    content := [secInvoice], metadata := [],
    modified_by := some "https://us.api.rossum.ai/v1/users/99999",
    modified_at := some "2025-11-25T10:00:00.000000Z" }

/-- Concrete annotation resource for the sideload witness. -/
def annRes : JDict := [("document", .str "u"), ("content", .str "uc"), ("id", .int 7)]

/-- Concrete HTTP GET double for the sideload witness. -/
def annHttp : Json → Json
  | .str "uc" => .obj [("content", .arr [.int 1])]
  | _ => .obj [("x", .int 2)]

/-- The enriched resource the sideload witness expects. -/
def annEnriched : JDict :=
  [("document", .obj [("x", .int 2)]), ("content", .arr [.int 1]), ("id", .int 7)]

/-- Concrete two-page chain for the pagination witness. -/
def pageChain : String → Page :=
  fun u => if u = "p0" then ⟨[.int 1, .int 2], some "p1"⟩ else ⟨[.int 3], none⟩

/-! # Helper lemmas -/

@[simp] theorem exBind_ok (a : α) (f : α → Except ε β) :
    (Except.ok a >>= f : Except ε β) = f a := rfl

@[simp] theorem exBind_error (e : ε) (f : α → Except ε β) :
    (Except.error e >>= f : Except ε β) = Except.error e := rfl

@[simp] theorem exPure (a : α) : (pure a : Except ε α) = Except.ok a := rfl

@[simp] theorem exMap_ok (a : α) (f : α → β) :
    (Except.ok a : Except ε α).map f = Except.ok (f a) := rfl

@[simp] theorem exMap_error (e : ε) (f : α → β) :
    (Except.error e : Except ε α).map f = Except.error e := rfl

theorem eachE_ok_length {f : α → Except ε β} {xs : List α} {ys : List β}
    (h : eachE f xs = .ok ys) : ys.length = xs.length := by
  induction xs generalizing ys with
  | nil => simp [eachE] at h; subst h; rfl
  | cons x xs ih =>
    rw [eachE] at h
    cases hx : f x with
    | error e => rw [hx] at h; simp at h
    | ok y =>
      rw [hx] at h
      cases hxs : eachE f xs with
      | error e => rw [hxs] at h; simp at h
      | ok ys0 =>
        rw [hxs] at h
        simp only [Except.ok.injEq] at h
        subst h
        simp [ih hxs]

theorem eachE_ok_get {f : α → Except ε β} {xs : List α} {ys : List β}
    (h : eachE f xs = .ok ys) :
    ∀ i (hi : i < xs.length) (hj : i < ys.length),
      f (xs.get ⟨i, hi⟩) = .ok (ys.get ⟨i, hj⟩) := by
  induction xs generalizing ys with
  | nil => intro i hi hj; exact absurd hi (by simp)
  | cons x xs ih =>
    rw [eachE] at h
    cases hx : f x with
    | error e => rw [hx] at h; simp at h
    | ok y =>
      rw [hx] at h
      cases hxs : eachE f xs with
      | error e => rw [hxs] at h; simp at h
      | ok ys0 =>
        rw [hxs] at h
        simp only [Except.ok.injEq] at h
        subst h
        intro i hi hj
        cases i with
        | zero => simpa using hx
        | succ n =>
          exact ih hxs n (by simpa using hi) (by simpa using hj)

theorem eachE_map_ok {f : α → Except ε β} {g : β → α} {l : List β}
    (h : ∀ x ∈ l, f (g x) = .ok x) : eachE f (l.map g) = .ok l := by
  induction l with
  | nil => rfl
  | cons x xs ih =>
    simp only [List.map_cons, eachE, h x (by simp),
      ih (fun y hy => h y (by simp [hy]))]

theorem eachO_some_of_forall {f : α → Option β} {g : α → β} {l : List α}
    (h : ∀ x ∈ l, f x = some (g x)) : eachO f l = some (l.map g) := by
  induction l with
  | nil => rfl
  | cons x xs ih =>
    simp only [List.map_cons, eachO, h x (by simp),
      ih (fun y hy => h y (by simp [hy]))]

theorem bind_ok_inv {e : Except ε α} {f : α → Except ε β} {b : β}
    (h : (e >>= f) = .ok b) : ∃ a, e = .ok a ∧ f a = .ok b := by
  cases e with
  | error err => simp at h
  | ok a => exact ⟨a, rfl, by simpa using h⟩

theorem tupleBuildFields_children {d : JDict} {cs : List Datapoint} {t : Tuple}
    (h : Tuple.buildFields d cs = .ok t) : t.children = cs := by
  simp only [Tuple.buildFields] at h
  obtain ⟨v1, h1, h⟩ := bind_ok_inv h
  obtain ⟨v2, h2, h⟩ := bind_ok_inv h
  obtain ⟨v3, h3, h⟩ := bind_ok_inv h
  obtain ⟨v4, h4, h⟩ := bind_ok_inv h
  obtain ⟨v5, h5, h⟩ := bind_ok_inv h
  obtain ⟨v6, h6, h⟩ := bind_ok_inv h
  simp only [exPure, Except.ok.injEq] at h
  subst h; rfl

theorem multivalueBuildFields_children {d : JDict} {c : MVChild} {m : Multivalue}
    (h : Multivalue.buildFields d c = .ok m) :
    MVChild.daciteCheck c = .ok m.children := by
  simp only [Multivalue.buildFields] at h
  obtain ⟨c2, hc2, h⟩ := bind_ok_inv h
  obtain ⟨v1, h1, h⟩ := bind_ok_inv h
  obtain ⟨v2, h2, h⟩ := bind_ok_inv h
  obtain ⟨v3, h3, h⟩ := bind_ok_inv h
  obtain ⟨v4, h4, h⟩ := bind_ok_inv h
  obtain ⟨v5, h5, h⟩ := bind_ok_inv h
  obtain ⟨v6, h6, h⟩ := bind_ok_inv h
  obtain ⟨v7, h7, h⟩ := bind_ok_inv h
  obtain ⟨v8, h8, h⟩ := bind_ok_inv h
  obtain ⟨v9, h9, h⟩ := bind_ok_inv h
  simp only [exPure, Except.ok.injEq] at h
  subst h
  exact hc2

theorem sectionBuildFields_children {d : JDict} {cs : List SectionChild} {sec : Section}
    (h : Section.buildFields d cs = .ok sec) :
    eachE SectionChild.daciteCheck cs = .ok sec.children := by
  simp only [Section.buildFields] at h
  obtain ⟨cs2, hcs2, h⟩ := bind_ok_inv h
  obtain ⟨v1, h1, h⟩ := bind_ok_inv h
  obtain ⟨v2, h2, h⟩ := bind_ok_inv h
  obtain ⟨v3, h3, h⟩ := bind_ok_inv h
  obtain ⟨v4, h4, h⟩ := bind_ok_inv h
  simp only [exPure, Except.ok.injEq] at h
  subst h
  exact hcs2

theorem Schema.buildFields_content {d : JDict} {cs : List Section} {s : Schema}
    (h : Schema.buildFields d cs = .ok s) : s.content = cs := by
  simp only [Schema.buildFields] at h
  obtain ⟨v1, h1, h⟩ := bind_ok_inv h
  obtain ⟨v2, h2, h⟩ := bind_ok_inv h
  obtain ⟨v3, h3, h⟩ := bind_ok_inv h
  obtain ⟨v4, h4, h⟩ := bind_ok_inv h
  obtain ⟨v5, h5, h⟩ := bind_ok_inv h
  obtain ⟨v6, h6, h⟩ := bind_ok_inv h
  obtain ⟨v7, h7, h⟩ := bind_ok_inv h
  simp only [exPure, Except.ok.injEq] at h
  subst h; rfl

/-! ## From-dict inversion lemmas -/

theorem sectionFromDict_children_inv {d : JDict} {elems : List Json} {sec : Section}
    (hch : dget d "children" = some (.arr elems))
    (h : Section.from_dict (.obj d) = .ok sec) :
    ∃ cs, eachE Section.parseChild elems = .ok cs ∧
      eachE SectionChild.daciteCheck cs = .ok sec.children := by
  simp only [Section.from_dict, hch, Option.getD] at h
  obtain ⟨cs, hcs, hb⟩ := bind_ok_inv h
  exact ⟨cs, hcs, sectionBuildFields_children hb⟩

theorem tupleFromDict_children_inv {d : JDict} {elems : List Json} {t : Tuple}
    (hch : dget d "children" = some (.arr elems))
    (h : Tuple.from_dict (.obj d) = .ok t) :
    eachE Datapoint.from_dict elems = .ok t.children := by
  simp only [Tuple.from_dict, hch, Option.getD] at h
  obtain ⟨cs, hcs, hb⟩ := bind_ok_inv h
  rw [tupleBuildFields_children hb]
  exact hcs

theorem multivalueFromDict_children_inv {d : JDict} {c : Json} {m : Multivalue}
    (hch : dget d "children" = some c)
    (h : Multivalue.from_dict (.obj d) = .ok m) :
    ∃ mc, Multivalue.parseChild c = .ok mc ∧
      MVChild.daciteCheck mc = .ok m.children := by
  cases c with
  | null => simp [Multivalue.from_dict, hch] at h
  | bool b =>
    simp only [Multivalue.from_dict, hch] at h
    obtain ⟨mc, hmc, hb⟩ := bind_ok_inv h
    exact ⟨mc, hmc, multivalueBuildFields_children hb⟩
  | int n =>
    simp only [Multivalue.from_dict, hch] at h
    obtain ⟨mc, hmc, hb⟩ := bind_ok_inv h
    exact ⟨mc, hmc, multivalueBuildFields_children hb⟩
  | float q =>
    simp only [Multivalue.from_dict, hch] at h
    obtain ⟨mc, hmc, hb⟩ := bind_ok_inv h
    exact ⟨mc, hmc, multivalueBuildFields_children hb⟩
  | str s =>
    simp only [Multivalue.from_dict, hch] at h
    obtain ⟨mc, hmc, hb⟩ := bind_ok_inv h
    exact ⟨mc, hmc, multivalueBuildFields_children hb⟩
  | arr xs =>
    simp only [Multivalue.from_dict, hch] at h
    obtain ⟨mc, hmc, hb⟩ := bind_ok_inv h
    exact ⟨mc, hmc, multivalueBuildFields_children hb⟩
  | obj kvs =>
    simp only [Multivalue.from_dict, hch] at h
    obtain ⟨mc, hmc, hb⟩ := bind_ok_inv h
    exact ⟨mc, hmc, multivalueBuildFields_children hb⟩

theorem schemaFromDict_content_inv {d : JDict} {elems : List Json} {s : Schema}
    (hch : dget d "content" = some (.arr elems))
    (h : Schema.from_dict (.obj d) = .ok s) :
    eachE Section.from_dict elems = .ok s.content := by
  simp only [Schema.from_dict, hch, Option.getD] at h
  obtain ⟨cs, hcs, hb⟩ := bind_ok_inv h
  rw [Schema.buildFields_content hb]
  exact hcs

/-! ## Claim C1 -/

theorem mvchildDaciteCheck_never_raw {c c2 : MVChild}
    (h : MVChild.daciteCheck c = .ok c2) : ∀ j, c2 ≠ .raw j := by
  intro j hj
  subst hj
  cases c with
  | dp d => simp [MVChild.daciteCheck] at h
  | tup t => simp [MVChild.daciteCheck] at h
  | raw j0 =>
    simp only [MVChild.daciteCheck] at h
    cases h1 : Datapoint.from_dict j0 with
    | ok d => rw [h1] at h; simp at h
    | error e1 =>
      rw [h1] at h
      cases h2 : Tuple.daciteBuild j0 with
      | ok t => rw [h2] at h; simp at h
      | error e2 => rw [h2] at h; simp at h

theorem sectionChildDaciteCheck_never_raw {c c2 : SectionChild}
    (h : SectionChild.daciteCheck c = .ok c2) : ∀ j, c2 ≠ .raw j := by
  intro j hj
  subst hj
  cases c with
  | dp d => simp [SectionChild.daciteCheck] at h
  | mv m => simp [SectionChild.daciteCheck] at h
  | tup t => simp [SectionChild.daciteCheck] at h
  | raw j0 =>
    simp only [SectionChild.daciteCheck] at h
    cases h1 : Datapoint.from_dict j0 with
    | ok d => rw [h1] at h; simp at h
    | error e1 =>
      rw [h1] at h
      cases h2 : Multivalue.daciteBuild j0 with
      | ok m => rw [h2] at h; simp at h
      | error e2 =>
        rw [h2] at h
        cases h3 : Tuple.daciteBuild j0 with
        | ok t => rw [h3] at h; simp at h
        | error e3 => rw [h3] at h; simp at h

/-- C1 (amended): category dispatch of the `from_dict` family.
`Section.from_dict` runs each element of `"children"` through the
dispatch `Section.parseChild` (category `"datapoint"` to
`Datapoint.from_dict`, `"multivalue"` to `Multivalue.from_dict`,
`"tuple"` to `Tuple.from_dict`, anything else — another or missing
category, or a non-dict child — left raw) and then through the `dacite`
union check of the field annotation, which stores already-built model
instances unchanged, coerces a raw dict into the first matching union
member (a dict with an `id` becomes a `Datapoint`), and raises
`UnionMatchError` when no member matches, so no raw child ever appears
in a successfully returned `Section`.  `Multivalue.from_dict` dispatches
its single child among `"tuple"` and `"datapoint"` only — a
`"multivalue"` child is left raw and then coerced or rejected by the
union check, never parsed as a `Multivalue`.  `Tuple.from_dict` parses
every child with `Datapoint.from_dict` regardless of its category, and
`Schema.from_dict` parses every element of `"content"` as a `Section`. -/
theorem from_dict_category_dispatch :
    (∀ (d : JDict) (elems : List Json) (sec : Section),
      dget d "children" = some (.arr elems) →
      Section.from_dict (.obj d) = .ok sec →
      sec.children.length = elems.length ∧
      (∀ i (hi : i < elems.length) (hj : i < sec.children.length),
        ∃ c, Section.parseChild (elems.get ⟨i, hi⟩) = .ok c ∧
          SectionChild.daciteCheck c = .ok (sec.children.get ⟨i, hj⟩)) ∧
      (∀ c2 ∈ sec.children, ∀ j, c2 ≠ .raw j)) ∧
    (∀ kvs, dget kvs "category" = some (.str "datapoint") →
      Section.parseChild (.obj kvs) = (Datapoint.from_dict (.obj kvs)).map .dp) ∧
    (∀ kvs, dget kvs "category" = some (.str "multivalue") →
      Section.parseChild (.obj kvs) = (Multivalue.from_dict (.obj kvs)).map .mv) ∧
    (∀ kvs, dget kvs "category" = some (.str "tuple") →
      Section.parseChild (.obj kvs) = (Tuple.from_dict (.obj kvs)).map .tup) ∧
    (∀ kvs, (∀ c, dget kvs "category" = some (.str c) →
        c ≠ "datapoint" ∧ c ≠ "multivalue" ∧ c ≠ "tuple") →
      Section.parseChild (.obj kvs) = .ok (.raw (.obj kvs))) ∧
    (∀ j, (∀ kvs, j ≠ .obj kvs) → Section.parseChild j = .ok (.raw j)) ∧
    (∀ c : SectionChild, (∀ j, c ≠ .raw j) →
      SectionChild.daciteCheck c = .ok c) ∧
    (∀ j d0, Datapoint.from_dict j = .ok d0 →
      SectionChild.daciteCheck (.raw j) = .ok (.dp d0)) ∧
    (∀ j e1 e2 e3, Datapoint.from_dict j = .error e1 →
      Multivalue.daciteBuild j = .error e2 → Tuple.daciteBuild j = .error e3 →
      SectionChild.daciteCheck (.raw j) = .error .daciteError) ∧
    (∀ (d : JDict) (cj : Json) (m : Multivalue),
      dget d "children" = some cj → Multivalue.from_dict (.obj d) = .ok m →
      ∃ mc, Multivalue.parseChild cj = .ok mc ∧
        MVChild.daciteCheck mc = .ok m.children ∧
        ∀ j, m.children ≠ .raw j) ∧
    (∀ kvs, dget kvs "category" = some (.str "tuple") →
      Multivalue.parseChild (.obj kvs) = (Tuple.from_dict (.obj kvs)).map .tup) ∧
    (∀ kvs, dget kvs "category" = some (.str "datapoint") →
      Multivalue.parseChild (.obj kvs) = (Datapoint.from_dict (.obj kvs)).map .dp) ∧
    (∀ kvs, (∀ c, dget kvs "category" = some (.str c) →
        c ≠ "tuple" ∧ c ≠ "datapoint") →
      Multivalue.parseChild (.obj kvs) = .ok (.raw (.obj kvs))) ∧
    (∀ c : MVChild, (∀ j, c ≠ .raw j) → MVChild.daciteCheck c = .ok c) ∧
    (∀ j d0, Datapoint.from_dict j = .ok d0 →
      MVChild.daciteCheck (.raw j) = .ok (.dp d0)) ∧
    (∀ j e1 e2, Datapoint.from_dict j = .error e1 →
      Tuple.daciteBuild j = .error e2 →
      MVChild.daciteCheck (.raw j) = .error .daciteError) ∧
    (∀ (d : JDict) (elems : List Json) (t : Tuple),
      dget d "children" = some (.arr elems) →
      Tuple.from_dict (.obj d) = .ok t →
      t.children.length = elems.length ∧
      ∀ i (hi : i < elems.length) (hj : i < t.children.length),
        Datapoint.from_dict (elems.get ⟨i, hi⟩) = .ok (t.children.get ⟨i, hj⟩)) ∧
    (∀ (d : JDict) (elems : List Json) (s : Schema),
      dget d "content" = some (.arr elems) →
      Schema.from_dict (.obj d) = .ok s →
      s.content.length = elems.length ∧
      ∀ i (hi : i < elems.length) (hj : i < s.content.length),
        Section.from_dict (elems.get ⟨i, hi⟩) = .ok (s.content.get ⟨i, hj⟩)) := by
  refine ⟨?_, ?_, ?_, ?_, ?_, ?_, ?_, ?_, ?_, ?_, ?_, ?_, ?_, ?_, ?_, ?_, ?_, ?_⟩
  · intro d elems sec hch h
    obtain ⟨cs, hcs, hdc⟩ := sectionFromDict_children_inv hch h
    have hl1 := eachE_ok_length hcs
    have hl2 := eachE_ok_length hdc
    refine ⟨by omega, ?_, ?_⟩
    · intro i hi hj
      have hic : i < cs.length := by omega
      exact ⟨cs.get ⟨i, hic⟩, eachE_ok_get hcs i hi hic, eachE_ok_get hdc i hic hj⟩
    · intro c2 hmem j
      obtain ⟨⟨i, hij⟩, rfl⟩ := List.mem_iff_get.mp hmem
      have hic : i < cs.length := by omega
      exact sectionChildDaciteCheck_never_raw (eachE_ok_get hdc i hic hij) j
  · intro kvs hc
    simp only [Section.parseChild]
    rw [hc]
    simp
  · intro kvs hc
    simp only [Section.parseChild]
    rw [hc]
    simp
  · intro kvs hc
    simp only [Section.parseChild]
    rw [hc]
    simp
  · intro kvs hc
    simp only [Section.parseChild]
    cases hcat : dget kvs "category" with
    | none => rfl
    | some v =>
      cases v with
      | str c =>
        obtain ⟨h1, h2, h3⟩ := hc c hcat
        simp [h1, h2, h3]
      | null => rfl
      | bool b => rfl
      | int n => rfl
      | float q => rfl
      | arr xs => rfl
      | obj o => rfl
  · intro j hne
    cases j with
    | obj kvs => exact absurd rfl (hne kvs)
    | null => rfl
    | bool b => rfl
    | int n => rfl
    | float q => rfl
    | str s => rfl
    | arr xs => rfl
  · intro c hne
    cases c with
    | dp d => rfl
    | mv m => rfl
    | tup t => rfl
    | raw j => exact absurd rfl (hne j)
  · intro j d0 hdp
    simp [SectionChild.daciteCheck, hdp]
  · intro j e1 e2 e3 h1 h2 h3
    simp [SectionChild.daciteCheck, h1, h2, h3]
  · intro d cj m hch h
    obtain ⟨mc, hmc, hdc⟩ := multivalueFromDict_children_inv hch h
    exact ⟨mc, hmc, hdc, mvchildDaciteCheck_never_raw hdc⟩
  · intro kvs hc
    simp only [Multivalue.parseChild]
    rw [hc]
    simp
  · intro kvs hc
    simp only [Multivalue.parseChild]
    rw [hc]
    simp
  · intro kvs hc
    simp only [Multivalue.parseChild]
    cases hcat : dget kvs "category" with
    | none => rfl
    | some v =>
      cases v with
      | str c =>
        obtain ⟨h1, h2⟩ := hc c hcat
        simp [h1, h2]
      | null => rfl
      | bool b => rfl
      | int n => rfl
      | float q => rfl
      | arr xs => rfl
      | obj o => rfl
  · intro c hne
    cases c with
    | dp d => rfl
    | tup t => rfl
    | raw j => exact absurd rfl (hne j)
  · intro j d0 hdp
    simp [MVChild.daciteCheck, hdp]
  · intro j e1 e2 h1 h2
    simp [MVChild.daciteCheck, h1, h2]
  · intro d elems t hch h
    have hinv := tupleFromDict_children_inv hch h
    exact ⟨eachE_ok_length hinv, fun i hi hj => eachE_ok_get hinv i hi hj⟩
  · intro d elems s hch h
    have hinv := schemaFromDict_content_inv hch h
    exact ⟨eachE_ok_length hinv, fun i hi hj => eachE_ok_get hinv i hi hj⟩

/-- C1 counterexample: the claim reads the dispatch as applying uniformly
inside `Multivalue.from_dict` and `Tuple.from_dict`.  It does not: a
child of a tuple with category `"tuple"` is parsed as a `Datapoint` (the
result type of the children list), and a child of a multivalue with
category `"multivalue"` is not parsed as a `Multivalue` — the dispatch
leaves it raw and the `dacite` union check against `Datapoint | Tuple`
then coerces it into a `Datapoint` carrying category `"multivalue"`. -/
theorem from_dict_category_dispatch_cex :
    Tuple.from_dict (.obj [("id", .str "t"),
        ("children", .arr [.obj [("category", .str "tuple"), ("id", .str "x"),
                                 ("children", .arr [])]])])
      = .ok { id := "t", children := [{ id := "x", category := "tuple" }] } ∧
    Multivalue.from_dict (.obj [("id", .str "m"),
        ("children", .obj [("category", .str "multivalue"), ("id", .str "y"),
                           ("children", .obj [("category", .str "datapoint"),
                                              ("id", .str "z")])])])
      = .ok { id := "m",
              children := .dp { id := "y", category := "multivalue" } } :=
  ⟨rfl, rfl⟩

/-- C1 witness: the datapoint dispatch arm of `Section.parseChild` at a
concrete child. -/
theorem from_dict_category_dispatch_witness :
    Section.parseChild (.obj [("category", .str "datapoint"), ("id", .str "z")]) =
      (Datapoint.from_dict (.obj [("category", .str "datapoint"), ("id", .str "z")])).map
        .dp :=
  from_dict_category_dispatch.2.1 [("category", .str "datapoint"), ("id", .str "z")] rfl

/-! ## Claim C2 -/

theorem buttonFilter_append (ib : Bool) (a b : List SchemaNode) :
    buttonFilter ib (a ++ b) = buttonFilter ib a ++ buttonFilter ib b := by
  cases ib <;> simp [buttonFilter]

theorem buttonFilter_cons_of_not_button {n : SchemaNode} (h : n.isButton = false)
    (ib : Bool) (l : List SchemaNode) :
    buttonFilter ib (n :: l) = n :: buttonFilter ib l := by
  cases ib <;> simp [buttonFilter, h]

theorem datapointTraverse_eq_filter (d : Datapoint) (ib : Bool) :
    d.traverse ib = buttonFilter ib [.dp d] := by
  cases ib with
  | false => simp [Datapoint.traverse, buttonFilter]
  | true =>
    cases hb : d.is_button with
    | false => simp [Datapoint.traverse, buttonFilter, SchemaNode.isButton, hb]
    | true => simp [Datapoint.traverse, buttonFilter, SchemaNode.isButton, hb]

theorem tupleTraverse_eq_filter (t : Tuple) (ib : Bool) :
    t.traverse ib = buttonFilter ib t.nodeList := by
  rw [Tuple.traverse, Tuple.nodeList,
    buttonFilter_cons_of_not_button (by rfl) ib]
  congr 1
  induction t.children with
  | nil => cases ib <;> simp [buttonFilter]
  | cons c cs ih =>
    simp only [List.flatMap_cons, List.map_cons]
    rw [show (SchemaNode.dp c :: cs.map SchemaNode.dp) =
      [SchemaNode.dp c] ++ cs.map SchemaNode.dp from rfl]
    rw [buttonFilter_append, ih, datapointTraverse_eq_filter]

theorem mvchildTraverse_eq_filter {c : MVChild} (h : c.isModel = true) (ib : Bool) :
    c.traverse ib = some (buttonFilter ib c.nodeList) := by
  cases c with
  | dp d => simp [MVChild.traverse, MVChild.nodeList, datapointTraverse_eq_filter]
  | tup t => simp [MVChild.traverse, MVChild.nodeList, tupleTraverse_eq_filter]
  | raw j => simp [MVChild.isModel] at h

theorem multivalueTraverse_eq_filter {m : Multivalue}
    (h : m.children.isModel = true) (ib : Bool) :
    m.traverse ib = some (buttonFilter ib m.nodeList) := by
  rw [Multivalue.traverse, mvchildTraverse_eq_filter h ib]
  simp only [Option.map_some']
  rw [Multivalue.nodeList, buttonFilter_cons_of_not_button (by rfl) ib]

theorem sectionChildTraverse_eq_filter {c : SectionChild} (h : c.isModel = true)
    (ib : Bool) : c.traverse ib = some (buttonFilter ib c.nodeList) := by
  cases c with
  | dp d => simp [SectionChild.traverse, SectionChild.nodeList, datapointTraverse_eq_filter]
  | mv m =>
    simp only [SectionChild.isModel] at h
    simp [SectionChild.traverse, SectionChild.nodeList, multivalueTraverse_eq_filter h]
  | tup t => simp [SectionChild.traverse, SectionChild.nodeList, tupleTraverse_eq_filter]
  | raw j => simp [SectionChild.isModel] at h

theorem flatten_map_buttonFilter (ib : Bool) (f : α → List SchemaNode) (l : List α) :
    (l.map (fun x => buttonFilter ib (f x))).flatten = buttonFilter ib (l.flatMap f) := by
  induction l with
  | nil => cases ib <;> simp [buttonFilter]
  | cons x xs ih => simp only [List.map_cons, List.flatten_cons, List.flatMap_cons,
      buttonFilter_append, ih]

theorem sectionTraverse_eq_filter {s : Section} (h : s.isModel = true) (ib : Bool) :
    s.traverse ib = some (buttonFilter ib s.nodeList) := by
  rw [Section.traverse,
    eachO_some_of_forall (g := fun c => buttonFilter ib c.nodeList)
      (fun c hc => sectionChildTraverse_eq_filter
        (by simp only [Section.isModel, List.all_eq_true] at h; exact h c hc) ib)]
  simp only [Option.map_some']
  rw [flatten_map_buttonFilter ib SectionChild.nodeList, Section.nodeList]

theorem schemaTraverse_eq_filter {s : Schema} (h : s.isModel = true) (ib : Bool) :
    s.traverse ib = some (buttonFilter ib s.nodeList) := by
  rw [Schema.traverse,
    eachO_some_of_forall (g := fun sec => buttonFilter ib sec.nodeList)
      (fun sec hsec => sectionTraverse_eq_filter
        (by simp only [Schema.isModel, List.all_eq_true] at h; exact h sec hsec) ib)]
  simp only [Option.map_some']
  rw [flatten_map_buttonFilter ib Section.nodeList, Schema.nodeList]

/-- C2: for every schema built from the model classes, `Schema.traverse`
yields exactly the `Datapoint`, `Multivalue` and `Tuple` nodes reachable
from its sections in depth-first pre-order (`Schema.nodeList` places each
multivalue and tuple before its children); with `ignore_buttons = true`
(the default) exactly the button datapoints are omitted, and with
`ignore_buttons = false` they are included. -/
theorem traverse_yields_preorder_nodes (s : Schema) (ib : Bool) (h : s.isModel = true) :
    Schema.traverse s ib =
      some (if ib then (Schema.nodeList s).filter (fun n => !n.isButton)
            else Schema.nodeList s) :=
  schemaTraverse_eq_filter h ib

/-- C2 witness: the characterization evaluated on a concrete schema with
a button datapoint. -/
theorem traverse_yields_preorder_nodes_witness :
    Schema.isModel schInvoice = true ∧
    Schema.traverse schInvoice true =
      some (if true then (Schema.nodeList schInvoice).filter (fun n => !n.isButton)
            else Schema.nodeList schInvoice) :=
  ⟨rfl, traverse_yields_preorder_nodes schInvoice true rfl⟩

/-! ## Claim C8 -/

/-- C8: for every schema built from the model classes, `Schema.get_by_id`
returns the first traversed node whose `id` equals `node_id`, and `None`
when the traversal yields none.  Every returned node is a `Datapoint`,
`Multivalue` or `Tuple` — never a `Section`, since sections are not
yielded by `traverse` — so a `node_id` carried only by a section (or,
with `ignore_buttons = true`, only by a button datapoint) gives `None`
by the last conjunct. -/
theorem get_by_id_first_traversed (s : Schema) (nid : String) (ib : Bool)
    (h : s.isModel = true) :
    ∃ nodes, Schema.traverse s ib = some nodes ∧
      Schema.get_by_id s nid ib = some (nodes.find? (fun n => n.nodeId == nid)) ∧
      (∀ n, nodes.find? (fun n => n.nodeId == nid) = some n →
        n.nodeId = nid ∧ n ∈ nodes ∧
        ((∃ d, n = .dp d) ∨ (∃ m, n = .mv m) ∨ (∃ t, n = .tup t))) ∧
      ((∃ n ∈ nodes, n.nodeId = nid) →
        ∃ n, Schema.get_by_id s nid ib = some (some n) ∧ n.nodeId = nid) ∧
      ((∀ n ∈ nodes, n.nodeId ≠ nid) → Schema.get_by_id s nid ib = some none) := by
  have htrav := schemaTraverse_eq_filter h ib
  refine ⟨buttonFilter ib s.nodeList, htrav, ?_, ?_, ?_, ?_⟩
  · rw [Schema.get_by_id, htrav]
    rfl
  · intro n hfind
    refine ⟨by simpa using List.find?_some hfind, List.mem_of_find?_eq_some hfind, ?_⟩
    cases n with
    | dp d => exact Or.inl ⟨d, rfl⟩
    | mv m => exact Or.inr (Or.inl ⟨m, rfl⟩)
    | tup t => exact Or.inr (Or.inr ⟨t, rfl⟩)
  · intro ⟨n, hn, hnid⟩
    have hsome : (List.find? (fun n => n.nodeId == nid)
        (buttonFilter ib s.nodeList)).isSome := by
      rw [List.find?_isSome]
      exact ⟨n, hn, by simpa using hnid⟩
    obtain ⟨n0, hn0⟩ := Option.isSome_iff_exists.mp hsome
    refine ⟨n0, ?_, by simpa using List.find?_some hn0⟩
    rw [Schema.get_by_id, htrav, Option.map_some', hn0]
  · intro hnone
    rw [Schema.get_by_id, htrav, Option.map_some']
    have : List.find? (fun n => n.nodeId == nid) (buttonFilter ib s.nodeList) = none := by
      rw [List.find?_eq_none]
      intro n hn
      simpa using hnone n hn
    rw [this]

/-- C8 witness: the characterization at a concrete schema and a
`node_id` carried only by a button datapoint. -/
theorem get_by_id_first_traversed_witness :
    ∃ nodes, Schema.traverse schInvoice true = some nodes ∧
      Schema.get_by_id schInvoice "button1" true =
        some (nodes.find? (fun n => n.nodeId == "button1")) ∧
      (∀ n, nodes.find? (fun n => n.nodeId == "button1") = some n →
        n.nodeId = "button1" ∧ n ∈ nodes ∧
        ((∃ d, n = .dp d) ∨ (∃ m, n = .mv m) ∨ (∃ t, n = .tup t))) ∧
      ((∃ n ∈ nodes, n.nodeId = "button1") →
        ∃ n, Schema.get_by_id schInvoice "button1" true = some (some n) ∧
          n.nodeId = "button1") ∧
      ((∀ n ∈ nodes, n.nodeId ≠ "button1") →
        Schema.get_by_id schInvoice "button1" true = some none) :=
  get_by_id_first_traversed schInvoice "button1" true rfl

/-! ## Claim C9 -/

@[simp] theorem parseString_str (s : String) : parseString (.str s) = .ok s := rfl
@[simp] theorem parseInt_int (n : Int) : parseInt (.int n) = .ok n := rfl
@[simp] theorem parseBool_bool (b : Bool) : parseBool (.bool b) = .ok b := rfl
@[simp] theorem parseDict_obj (kvs : JDict) : parseDict (.obj kvs) = .ok kvs := rfl
@[simp] theorem parseOptString_jOptStr (x : Option String) :
    parseOptString (jOptStr x) = .ok x := by cases x <;> rfl
@[simp] theorem parseOptInt_jOptInt (x : Option Int) :
    parseOptInt (jOptInt x) = .ok x := by cases x <;> rfl
@[simp] theorem parseOptFloat_jOptFloat (x : Option Rat) :
    parseOptFloat (jOptFloat x) = .ok x := by cases x <;> rfl
@[simp] theorem parseOptDict_jOptDict (x : Option JDict) :
    parseOptDict (jOptDict x) = .ok x := by cases x <;> rfl
@[simp] theorem eachE_parseString_map_str (xs : List String) :
    eachE parseString (xs.map .str) = .ok xs := eachE_map_ok (fun x _ => rfl)
@[simp] theorem parseStringList_map_str (xs : List String) :
    parseStringList (.arr (xs.map .str)) = .ok xs := by simp [parseStringList]
@[simp] theorem parseOptStringList_jOptStrList (x : Option (List String)) :
    parseOptStringList (jOptStrList x) = .ok x := by
  cases x <;> simp [parseOptStringList, jOptStrList]
@[simp] theorem eachE_parseDict_map_obj (ds : List JDict) :
    eachE parseDict (ds.map .obj) = .ok ds := eachE_map_ok (fun x _ => rfl)
@[simp] theorem parseOptDictList_jOptDictList (x : Option (List JDict)) :
    parseOptDictList (jOptDictList x) = .ok x := by
  cases x <;> simp [parseOptDictList, jOptDictList]
@[simp] theorem DPType.ofTag_tag (t : DPType) : DPType.ofTag t.tag = some t := by
  cases t <;> rfl
@[simp] theorem parseOptDPType_jOptDPType (x : Option DPType) :
    parseOptDPType (jOptDPType x) = .ok x := by
  cases x <;> simp [parseOptDPType, jOptDPType]

theorem datapointFromDict_asdict (d : Datapoint) :
    Datapoint.from_dict d.asdict = .ok d := by
  cases d
  simp [Datapoint.asdict, Datapoint.from_dict, reqField, optField, dget]

theorem tupleFromDict_asdict (t : Tuple) :
    Tuple.from_dict t.asdict = .ok t := by
  cases t with
  | mk id children category label dpred hidden rfn =>
    simp only [Tuple.asdict, Tuple.from_dict, dget]
    simp only [String.reduceEq, if_false, if_true, reduceIte, Option.getD_some]
    rw [eachE_map_ok (fun x _ => datapointFromDict_asdict x)]
    simp [Tuple.buildFields, reqField, optField, dget]

theorem multivalueParseChild_asdict {c : MVChild} (h : c.defaultTags = true) :
    Multivalue.parseChild c.asdict = .ok c := by
  cases c with
  | dp d =>
    have hc : d.category = "datapoint" := by
      simpa [MVChild.defaultTags, Datapoint.defaultTag] using h
    have hfd := datapointFromDict_asdict d
    simp only [MVChild.asdict, Datapoint.asdict] at hfd ⊢
    rw [hc] at hfd ⊢
    simp [Multivalue.parseChild, dget, hfd]
  | tup t =>
    have hc : t.category = "tuple" := by
      simp only [MVChild.defaultTags, Tuple.defaultTags, Bool.and_eq_true,
        decide_eq_true_eq] at h
      exact h.1
    have hfd := tupleFromDict_asdict t
    simp only [MVChild.asdict, Tuple.asdict] at hfd ⊢
    rw [hc] at hfd ⊢
    simp [Multivalue.parseChild, dget, hfd]
  | raw j => simp [MVChild.defaultTags] at h

theorem multivalueFromDict_asdict {m : Multivalue} (h : m.defaultTags = true) :
    Multivalue.from_dict m.asdict = .ok m := by
  obtain ⟨hcat, hch⟩ : m.category = "multivalue" ∧ m.children.defaultTags = true := by
    simpa [Multivalue.defaultTags] using h
  have hpc := multivalueParseChild_asdict hch
  cases hm : m.children with
  | dp d =>
    rw [hm] at hpc
    simp only [MVChild.asdict, Datapoint.asdict] at hpc
    conv_lhs => rw [Multivalue.asdict, hm]
    simp only [MVChild.asdict, Datapoint.asdict, Multivalue.from_dict, dget]
    simp only [String.reduceEq, reduceIte]
    simp [hpc, Multivalue.buildFields, MVChild.daciteCheck, reqField, optField,
      dget, hm]
    rw [← hm]
  | tup t =>
    rw [hm] at hpc
    simp only [MVChild.asdict, Tuple.asdict] at hpc
    conv_lhs => rw [Multivalue.asdict, hm]
    simp only [MVChild.asdict, Tuple.asdict, Multivalue.from_dict, dget]
    simp only [String.reduceEq, reduceIte]
    simp [hpc, Multivalue.buildFields, MVChild.daciteCheck, reqField, optField,
      dget, hm]
    rw [← hm]
  | raw j => rw [hm] at hch; simp [MVChild.defaultTags] at hch

theorem sectionParseChild_asdict {c : SectionChild} (h : c.defaultTags = true) :
    Section.parseChild c.asdict = .ok c := by
  cases c with
  | dp d =>
    have hc : d.category = "datapoint" := by
      simpa [SectionChild.defaultTags, Datapoint.defaultTag] using h
    have hfd := datapointFromDict_asdict d
    simp only [SectionChild.asdict, Datapoint.asdict] at hfd ⊢
    rw [hc] at hfd ⊢
    simp [Section.parseChild, dget, hfd]
  | mv m =>
    have hc : m.category = "multivalue" := by
      simp only [SectionChild.defaultTags, Multivalue.defaultTags, Bool.and_eq_true,
        decide_eq_true_eq] at h
      exact h.1
    have hfd := multivalueFromDict_asdict (by
      simpa [SectionChild.defaultTags] using h)
    simp only [SectionChild.asdict, Multivalue.asdict] at hfd ⊢
    rw [hc] at hfd ⊢
    simp [Section.parseChild, dget, hfd]
  | tup t =>
    have hc : t.category = "tuple" := by
      simp only [SectionChild.defaultTags, Tuple.defaultTags, Bool.and_eq_true,
        decide_eq_true_eq] at h
      exact h.1
    have hfd := tupleFromDict_asdict t
    simp only [SectionChild.asdict, Tuple.asdict] at hfd ⊢
    rw [hc] at hfd ⊢
    simp [Section.parseChild, dget, hfd]
  | raw j => simp [SectionChild.defaultTags] at h

theorem eachE_ok_id_of_forall {f : α → Except ε α} {l : List α}
    (h : ∀ x ∈ l, f x = .ok x) : eachE f l = .ok l := by
  induction l with
  | nil => rfl
  | cons x xs ih =>
    simp only [eachE, h x (by simp), ih (fun y hy => h y (by simp [hy]))]

theorem sectionChildDaciteCheck_model {c : SectionChild} (h : c.defaultTags = true) :
    SectionChild.daciteCheck c = .ok c := by
  cases c with
  | dp d => rfl
  | mv m => rfl
  | tup t => rfl
  | raw j => simp [SectionChild.defaultTags] at h

theorem sectionFromDict_asdict {s : Section} (h : s.defaultTags = true) :
    Section.from_dict s.asdict = .ok s := by
  have hch : ∀ c ∈ s.children, c.defaultTags = true := by
    simp only [Section.defaultTags, Bool.and_eq_true, List.all_eq_true] at h
    exact h.2
  have heach : eachE Section.parseChild (s.children.map SectionChild.asdict) =
      .ok s.children :=
    eachE_map_ok (fun c hc => sectionParseChild_asdict (hch c hc))
  have hcheck : eachE SectionChild.daciteCheck s.children = .ok s.children :=
    eachE_ok_id_of_forall (fun c hc => sectionChildDaciteCheck_model (hch c hc))
  cases s with
  | mk id children category label icon =>
    simp only [Section.asdict, Section.from_dict, dget]
    simp only [String.reduceEq, reduceIte, Option.getD_some]
    rw [heach]
    simp only [exBind_ok, Section.buildFields]
    rw [hcheck]
    simp [reqField, optField, dget]

/-- C9: serialization round-trip — for every `Schema` value built from
the model classes `Section`, `Multivalue`, `Tuple` and `Datapoint` with
their default category tags, `Schema.from_dict` applied to
`dataclasses.asdict` of the schema returns the original schema. -/
theorem schema_serialization_roundtrip {s : Schema} (h : s.defaultTags = true) :
    Schema.from_dict (Schema.asdict s) = .ok s := by
  have hsec : ∀ sec ∈ s.content, sec.defaultTags = true := by
    simp only [Schema.defaultTags, List.all_eq_true] at h
    exact h
  have heach : eachE Section.from_dict (s.content.map Section.asdict) = .ok s.content :=
    eachE_map_ok (fun sec hs => sectionFromDict_asdict (hsec sec hs))
  cases s with
  | mk id name queues url content metadata mby mat =>
    simp only [Schema.asdict, Schema.from_dict, dget]
    simp only [String.reduceEq, reduceIte, Option.getD_some]
    rw [heach]
    simp [Schema.buildFields, reqField, optField, dget]

/-- C9 witness: the round-trip evaluated on a concrete schema. -/
theorem schema_serialization_roundtrip_witness :
    Schema.defaultTags schInvoice = true ∧
    Schema.from_dict (Schema.asdict schInvoice) = .ok schInvoice :=
  ⟨rfl, schema_serialization_roundtrip rfl⟩

/-! ## Claim C10 -/

/-- C10: `RuleAction.from_dict` resolves the payload dataclass from the
action type via the fixed 13-entry mapping `_ACTION_TYPE_TO_PAYLOAD`
(e.g. `"show_message"` to `ShowMessagePayload`, `"change_queue"` to
`ChangeQueuePayload`), keeps the payload as the raw value for
`"custom"`, defaults `"enabled"` to `True` and `"payload"` to the empty
dict when absent, and raises `KeyError` when the type is missing or
outside the 13 known action types or when `"id"` or `"event"` is
missing. -/
theorem ruleaction_from_dict_spec :
    (ACTION_TYPE_TO_PAYLOAD.length = 13 ∧
     ACTION_TYPE_TO_PAYLOAD.lookup "show_message" = some (some .showMessage) ∧
     ACTION_TYPE_TO_PAYLOAD.lookup "change_queue" = some (some .changeQueue) ∧
     ACTION_TYPE_TO_PAYLOAD.lookup "custom" = some none) ∧
    (∀ j, PayloadCls.showMessage.build j =
      (ShowMessagePayload.from_dict j).map .showMessage) ∧
    (∀ j, PayloadCls.changeQueue.build j =
      (ChangeQueuePayload.from_dict j).map .changeQueue) ∧
    (∀ j, payloadOf none j = .ok (.raw j)) ∧
    (∀ d : JDict, dget d "type" = none →
      RuleAction.from_dict (.obj d) = .error (.keyError "type")) ∧
    (∀ (d : JDict) (t : String), dget d "type" = some (.str t) →
      ACTION_TYPE_TO_PAYLOAD.lookup t = none →
      RuleAction.from_dict (.obj d) = .error (.keyError t)) ∧
    (∀ (d : JDict) (t : String) (pc : Option PayloadCls) (p : RuleActionPayload),
      dget d "type" = some (.str t) →
      ACTION_TYPE_TO_PAYLOAD.lookup t = some pc →
      payloadOf pc ((dget d "payload").getD (.obj [])) = .ok p →
      (dget d "id" = none → RuleAction.from_dict (.obj d) = .error (.keyError "id")) ∧
      (∀ i, dget d "id" = some i → dget d "event" = none →
        RuleAction.from_dict (.obj d) = .error (.keyError "event")) ∧
      (∀ i e, dget d "id" = some i → dget d "event" = some e →
        RuleAction.from_dict (.obj d) =
          .ok { id := i, type := .str t, payload := p, event := e,
                enabled := (dget d "enabled").getD (.bool true) })) := by
  refine ⟨⟨rfl, rfl, rfl, rfl⟩, fun j => rfl, fun j => rfl, fun j => rfl, ?_, ?_, ?_⟩
  · intro d h
    simp [RuleAction.from_dict, h]
  · intro d t ht hlk
    simp [RuleAction.from_dict, ht, hlk]
  · intro d t pc p ht hlk hp
    refine ⟨?_, ?_, ?_⟩
    · intro hid
      simp [RuleAction.from_dict, ht, hlk, hp, hid]
    · intro i hid hev
      simp [RuleAction.from_dict, ht, hlk, hp, hid, hev]
    · intro i e hid hev
      simp [RuleAction.from_dict, ht, hlk, hp, hid, hev]

/-- C10 witness: the success conjunct at a concrete `"custom"` action
with absent payload and enabled. -/
theorem ruleaction_from_dict_spec_witness :
    RuleAction.from_dict (.obj [("type", .str "custom"), ("id", .str "a1"),
        ("event", .str "validation")]) =
      .ok { id := .str "a1", type := .str "custom", payload := .raw (.obj []),
            event := .str "validation", enabled := .bool true } :=
  (ruleaction_from_dict_spec.2.2.2.2.2.2
      [("type", .str "custom"), ("id", .str "a1"), ("event", .str "validation")]
      "custom" none (.raw (.obj [])) rfl rfl rfl).2.2
    (.str "a1") (.str "validation") rfl rfl

/-! ## Claim C3 -/

theorem pollLoop_first_sat {fetch : Nat → α} {p : α → Bool} {sleep_s : Int} :
    ∀ (n i fuel : Nat), (∀ k, k < n → p (fetch (i + k)) = false) →
      p (fetch (i + n)) = true → n < fuel →
      pollLoop fetch p sleep_s i fuel =
        some (pollTraceFrom fetch sleep_s i n, fetch (i + n)) := by
  intro n
  induction n with
  | zero =>
    intro i fuel h0 hn hf
    obtain ⟨f, rfl⟩ : ∃ f, fuel = f + 1 := ⟨fuel - 1, by omega⟩
    simp only [Nat.add_zero] at hn
    simp [pollLoop, pollTraceFrom, hn]
  | succ m ih =>
    intro i fuel h0 hn hf
    obtain ⟨f, rfl⟩ : ∃ f, fuel = f + 1 := ⟨fuel - 1, by omega⟩
    have hfail : p (fetch i) = false := by
      have := h0 0 (by omega)
      simpa using this
    have hrec := ih (i + 1) f
      (fun k hk => by
        have h := h0 (k + 1) (by omega)
        rwa [show i + (k + 1) = i + 1 + k by omega] at h)
      (by rwa [show i + 1 + m = i + (m + 1) by omega])
      (by omega)
    simp [pollLoop, hfail, hrec, pollTraceFrom,
      show i + 1 + m = i + (m + 1) by omega]

theorem pollTraceFrom_slept {fetch : Nat → α} {s : Int} :
    ∀ (n i : Nat) (d : Int), PollEvent.slept d ∈ pollTraceFrom fetch s i n → d = s := by
  intro n
  induction n with
  | zero => intro i d h; simp [pollTraceFrom] at h
  | succ m ih =>
    intro i d h
    simp only [pollTraceFrom, List.mem_cons] at h
    rcases h with h | h | h
    · exact absurd h (by simp)
    · exact (PollEvent.slept.injEq .. ▸ congrArg id h) ▸ (by cases h; rfl)
    · exact ih (i + 1) d h

theorem pollTraceFrom_sleepCount {fetch : Nat → α} {s : Int} :
    ∀ (n i : Nat), sleepCount (pollTraceFrom fetch s i n) = n := by
  intro n
  induction n with
  | zero => intro i; simp [pollTraceFrom, sleepCount]
  | succ m ih =>
    intro i
    simp [pollTraceFrom, sleepCount, List.countP_cons] at ih ⊢
    exact ih (i + 1)

theorem pollTraceFrom_fetchCount {fetch : Nat → α} {s : Int} :
    ∀ (n i : Nat), fetchCount (pollTraceFrom fetch s i n) = n + 1 := by
  intro n
  induction n with
  | zero => intro i; simp [pollTraceFrom, fetchCount]
  | succ m ih =>
    intro i
    simp [pollTraceFrom, fetchCount, List.countP_cons] at ih ⊢
    exact ih (i + 1)

theorem pollLoop_none_of_never {fetch : Nat → α} {p : α → Bool} {sleep_s : Int}
    (h : ∀ i, p (fetch i) = false) :
    ∀ (fuel i : Nat), pollLoop fetch p sleep_s i fuel = none := by
  intro fuel
  induction fuel with
  | zero => intro i; rfl
  | succ f ih => intro i; simp [pollLoop, h i, ih (i + 1)]

/-- C3: `poll_annotation` and `poll_task` are sleep-and-recheck loops
with no backoff: when the first predicate-satisfying fetch is the `n`-th,
the run consists of `n + 1` fetches separated by `n` sleeps all of the
same constant `sleep_s` (no growing delay), the returned value is that
first satisfying fetch (for `poll_annotation`, its deserialization, with
no sideloads requested), so the result satisfies the predicate; and the
loops impose no retry limit — they return only when the predicate holds,
diverging for every fuel when it never does. -/
theorem poll_constant_sleep_first_satisfying :
    (∀ {τ : Type} (retrieve : Nat → τ) (p : τ → Bool) (sleep_s : Int) (n fuel : Nat),
      (∀ k, k < n → p (retrieve k) = false) → p (retrieve n) = true → n < fuel →
      poll_task retrieve p sleep_s fuel =
        some (pollTraceFrom retrieve sleep_s 0 n, retrieve n) ∧
      p (retrieve n) = true ∧
      (∀ d, PollEvent.slept d ∈ pollTraceFrom retrieve sleep_s 0 n → d = sleep_s) ∧
      sleepCount (pollTraceFrom retrieve sleep_s 0 n) = n ∧
      fetchCount (pollTraceFrom retrieve sleep_s 0 n) = n + 1) ∧
    (∀ {J α : Type} (fetch : Nat → J) (deser : J → α) (p : α → Bool) (enrich : J → J)
        (sleep_s : Int) (n fuel : Nat),
      (∀ k, k < n → p (deser (fetch k)) = false) → p (deser (fetch n)) = true →
      n < fuel →
      poll_annotation fetch deser p enrich sleep_s [] fuel =
        some (pollTraceFrom fetch sleep_s 0 n, deser (fetch n)) ∧
      p (deser (fetch n)) = true ∧
      (∀ d, PollEvent.slept d ∈ pollTraceFrom fetch sleep_s 0 n → d = sleep_s)) ∧
    (∀ {τ : Type} (retrieve : Nat → τ) (p : τ → Bool) (sleep_s : Int) (fuel : Nat),
      (∀ i, p (retrieve i) = false) → poll_task retrieve p sleep_s fuel = none) := by
  refine ⟨?_, ?_, ?_⟩
  · intro τ retrieve p sleep_s n fuel h0 hn hf
    have hloop := @pollLoop_first_sat τ retrieve p sleep_s n 0 fuel
      (by simpa using h0) (by simpa using hn) hf
    exact ⟨by simpa [poll_task] using hloop, hn, fun d => pollTraceFrom_slept n 0 d,
      pollTraceFrom_sleepCount n 0, pollTraceFrom_fetchCount n 0⟩
  · intro J α fetch deser p enrich sleep_s n fuel h0 hn hf
    have hloop := @pollLoop_first_sat J fetch (fun j => p (deser j)) sleep_s n 0 fuel
      (by simpa using h0) (by simpa using hn) hf
    refine ⟨?_, hn, fun d => pollTraceFrom_slept n 0 d⟩
    rw [ poll_annotation, hloop]
    simp
  · intro τ retrieve p sleep_s fuel h
    exact pollLoop_none_of_never h fuel 0

/-- C3 witness: a concrete poll whose third fetch is the first to satisfy
the predicate. -/
theorem poll_constant_sleep_first_satisfying_witness :
    poll_task (fun i => i) (fun v => v == 2) 3 4 =
      some (pollTraceFrom (fun i => i) 3 0 2, 2) ∧
    ((2 : Nat) == 2) = true ∧
    (∀ d, PollEvent.slept d ∈ pollTraceFrom (fun i : Nat => i) 3 0 2 → d = 3) ∧
    sleepCount (pollTraceFrom (fun i : Nat => i) 3 0 2) = 2 ∧
    fetchCount (pollTraceFrom (fun i : Nat => i) 3 0 2) = 2 + 1 :=
  poll_constant_sleep_first_satisfying.1 (fun i => i) (fun v => v == 2) 3 2 4
    (by decide) (by decide) (by decide)

/-! ## Claim C4 -/

theorem gather_foldl_getElem {tasks : List (Unit → α)} :
    ∀ (order : List Nat) (slots : List (Option α)), slots.length = tasks.length →
      ∀ i : Nat,
      (order.foldl (fun sl j =>
        match tasks[j]? with
        | some t => sl.set j (some (t ()))
        | none => sl) slots)[i]? =
      if i ∈ order ∧ i < tasks.length
      then (tasks[i]?).map (fun t => some (t ()))
      else slots[i]? := by
  intro order
  induction order with
  | nil => intro slots hlen i; simp
  | cons o rest ih =>
    intro slots hlen i
    rw [List.foldl_cons]
    cases ho : tasks[o]? with
    | none =>
      rw [ih slots hlen i]
      have hno : o < tasks.length → False := fun hlt => by
        rw [List.getElem?_eq_getElem hlt] at ho
        exact Option.noConfusion ho
      by_cases hi : i ∈ rest ∧ i < tasks.length
      · simp [hi, hi.1, hi.2]
      · have : ¬(i ∈ o :: rest ∧ i < tasks.length) := by
          intro ⟨hmem, hlt⟩
          rcases List.mem_cons.mp hmem with rfl | hmem2
          · exact hno hlt
          · exact hi ⟨hmem2, hlt⟩
        simp only [this, if_false]
        simp [hi]
    | some t =>
      rw [ih (slots.set o (some (t ()))) (by simp [hlen]) i]
      have hol : o < tasks.length := by
        by_contra hge
        rw [List.getElem?_eq_none (by omega)] at ho
        exact Option.noConfusion ho
      by_cases hi : i ∈ rest ∧ i < tasks.length
      · rw [if_pos hi, if_pos ⟨List.mem_cons_of_mem o hi.1, hi.2⟩]
      · rw [if_neg hi]
        by_cases heq : i = o
        · have hcond : i ∈ o :: rest ∧ i < tasks.length := by
            constructor
            · rw [heq]; exact List.mem_cons_self o rest
            · rw [heq]; exact hol
          rw [if_pos hcond, heq, List.getElem?_set_eq_of_lt _ (by omega), ho]
          rfl
        · have hcond : ¬(i ∈ o :: rest ∧ i < tasks.length) := by
            intro hc
            rcases List.mem_cons.mp hc.1 with h1 | h2
            · exact heq h1
            · exact hi ⟨h2, hc.2⟩
          rw [if_neg hcond]
          exact List.getElem?_set_ne (by omega)

theorem gatherRun_complete {tasks : List (Unit → α)} {order : List Nat}
    (h : ∀ i, i < tasks.length → i ∈ order) :
    gatherRun tasks order = tasks.map (fun t => some (t ())) := by
  apply List.ext_getElem?
  intro i
  rw [gatherRun, gather_foldl_getElem order (List.replicate tasks.length none)
    (by simp) i]
  by_cases hi : i < tasks.length
  · simp [h i hi, hi, List.getElem?_eq_getElem, List.getElem?_map]
  · have hcond : ¬(i ∈ order ∧ i < tasks.length) := fun hc => hi hc.2
    have h2 : (tasks.map (fun t => some (t ())))[i]? = none :=
      List.getElem?_eq_none (by simp only [List.length_map]; omega)
    rw [if_neg hcond, h2]
    exact List.getElem?_eq_none (by simp only [List.length_replicate]; omega)

/-- C4: `import_document` and `upload_document` fan the per-file uploads
out as concurrently running tasks, yet for every list of `n` files and
every complete completion order, the gathered result is the per-file
results in the order of the `files` argument: `n` annotation ids /
task responses, the `i`-th coming from the `i`-th file. -/
theorem upload_fanout_preserves_order {F τ : Type} (upload : F → Int)
    (create_upload : F → τ) (files : List F) (order : List Nat)
    (h : ∀ i, i < files.length → i ∈ order) :
    import_document upload files order = files.map (fun f => some (upload f)) ∧
    (import_document upload files order).length = files.length ∧
    (∀ i (hi : i < files.length) (hj : i < (import_document upload files order).length),
      (import_document upload files order).get ⟨i, hj⟩ =
        some (upload (files.get ⟨i, hi⟩))) ∧
    upload_document create_upload files order =
      files.map (fun f => some (create_upload f)) ∧
    (upload_document create_upload files order).length = files.length ∧
    (∀ i (hi : i < files.length)
        (hj : i < (upload_document create_upload files order).length),
      (upload_document create_upload files order).get ⟨i, hj⟩ =
        some (create_upload (files.get ⟨i, hi⟩))) := by
  have himp : import_document upload files order =
      files.map (fun f => some (upload f)) := by
    rw [import_document, gatherRun_complete (by simpa using h)]
    simp [List.map_map, Function.comp]
  have hup : upload_document create_upload files order =
      files.map (fun f => some (create_upload f)) := by
    rw [upload_document, gatherRun_complete (by simpa using h)]
    simp [List.map_map, Function.comp]
  refine ⟨himp, by simp [himp], ?_, hup, by simp [hup], ?_⟩
  · intro i hi hj
    simp [himp]
  · intro i hi hj
    simp [hup]

/-- C4 witness: two files completing out of order still gather in
argument order. -/
theorem upload_fanout_preserves_order_witness :
    import_document (fun f : Int => f + 1) [10, 20] [1, 0] =
      ([10, 20] : List Int).map (fun f => some (f + 1)) ∧
    (import_document (fun f : Int => f + 1) [10, 20] [1, 0]).length =
      ([10, 20] : List Int).length ∧
    (∀ i (hi : i < ([10, 20] : List Int).length)
        (hj : i < (import_document (fun f : Int => f + 1) [10, 20] [1, 0]).length),
      (import_document (fun f : Int => f + 1) [10, 20] [1, 0]).get ⟨i, hj⟩ =
        some ((([10, 20] : List Int).get ⟨i, hi⟩) + 1)) ∧
    upload_document (fun f : Int => f * 2) [10, 20] [1, 0] =
      ([10, 20] : List Int).map (fun f => some (f * 2)) ∧
    (upload_document (fun f : Int => f * 2) [10, 20] [1, 0]).length =
      ([10, 20] : List Int).length ∧
    (∀ i (hi : i < ([10, 20] : List Int).length)
        (hj : i < (upload_document (fun f : Int => f * 2) [10, 20] [1, 0]).length),
      (upload_document (fun f : Int => f * 2) [10, 20] [1, 0]).get ⟨i, hj⟩ =
        some ((([10, 20] : List Int).get ⟨i, hi⟩) * 2)) :=
  @upload_fanout_preserves_order Int Int (fun f => f + 1) (fun f => f * 2)
    [10, 20] [1, 0] (by decide)

/-! ## Claim C5 -/

theorem except_map_ok_inv {e : Except ε α} {f : α → β} {b : β}
    (h : e.map f = .ok b) : ∃ a, e = .ok a ∧ f a = b := by
  cases e with
  | error err => simp [Except.map] at h
  | ok a => exact ⟨a, rfl, by simpa [Except.map] using h⟩

theorem dget_dset_self (d : JDict) (k : String) (v : Json) :
    dget (dset d k v) k = some v := by
  induction d with
  | nil => simp [dset, dget]
  | cons kv rest ih =>
    obtain ⟨k0, v0⟩ := kv
    by_cases h : k0 = k
    · simp [dset, dget, h]
    · simp [dset, dget, h, ih]

theorem dget_dset_ne (d : JDict) {k k2 : String} (h : k ≠ k2) (v : Json) :
    dget (dset d k v) k2 = dget d k2 := by
  induction d with
  | nil => simp [dset, dget, h]
  | cons kv rest ih =>
    obtain ⟨k0, v0⟩ := kv
    by_cases h0 : k0 = k
    · subst h0
      simp [dset, dget, h]
    · have h2k : k2 ≠ k := fun hh => h hh.symm
      by_cases h2 : k0 = k2
      · simp [dset, dget, h0, h2, h2k]
      · simp [dset, dget, h0, h2, ih]

theorem sideloadWrite_eq (ts : String → String) (res : JDict) (s : String)
    (v : Option Json) :
    sideloadWrite ts res s v = (sideloadValue s v).map (dset res (ts s)) := by
  cases v with
  | none => rfl
  | some j =>
    by_cases hs : s = "content"
    · cases j with
      | obj kvs =>
        simp only [sideloadWrite, sideloadValue, hs, if_true]
        cases dget kvs "content" <;> rfl
      | null => simp [sideloadWrite, sideloadValue, hs]
      | bool b => simp [sideloadWrite, sideloadValue, hs]
      | int n => simp [sideloadWrite, sideloadValue, hs]
      | float q => simp [sideloadWrite, sideloadValue, hs]
      | str s2 => simp [sideloadWrite, sideloadValue, hs]
      | arr xs => simp [sideloadWrite, sideloadValue, hs]
    · simp [sideloadWrite, sideloadValue, hs]

theorem sideload_foldl_frame {ts : String → String} :
    ∀ (pairs : List (String × Option Json)) (res res2 : JDict),
      pairs.foldlM (fun r (sv : String × Option Json) =>
        sideloadWrite ts r sv.1 sv.2) res = .ok res2 →
      ∀ k, (∀ sv ∈ pairs, ts sv.1 ≠ k) → dget res2 k = dget res k := by
  intro pairs
  induction pairs with
  | nil =>
    intro res res2 h k hk
    simp only [List.foldlM_nil] at h
    cases h
    rfl
  | cons sv rest ih =>
    intro res res2 h k hk
    rw [List.foldlM_cons] at h
    obtain ⟨r1, hr1, hrest⟩ := bind_ok_inv h
    rw [sideloadWrite_eq] at hr1
    obtain ⟨w, hw, hr1e⟩ := except_map_ok_inv hr1
    subst hr1e
    rw [ih (dset res (ts sv.1) w) res2 hrest k
      (fun sv2 hm => hk sv2 (List.mem_cons_of_mem sv hm))]
    exact dget_dset_ne res (hk sv (List.mem_cons_self sv rest)) w

theorem sideload_foldl_written {ts : String → String} :
    ∀ (pairs : List (String × Option Json)) (res res2 : JDict),
      pairs.foldlM (fun r (sv : String × Option Json) =>
        sideloadWrite ts r sv.1 sv.2) res = .ok res2 →
      (pairs.map (fun sv => ts sv.1)).Nodup →
      ∀ sv ∈ pairs, ∃ w, sideloadValue sv.1 sv.2 = .ok w ∧
        dget res2 (ts sv.1) = some w := by
  intro pairs
  induction pairs with
  | nil => intro res res2 h hnd sv hm; exact absurd hm (by simp)
  | cons sv0 rest ih =>
    intro res res2 h hnd sv hm
    rw [List.foldlM_cons] at h
    obtain ⟨r1, hr1, hrest⟩ := bind_ok_inv h
    rw [sideloadWrite_eq] at hr1
    obtain ⟨w0, hw0, hr1e⟩ := except_map_ok_inv hr1
    subst hr1e
    simp only [List.map_cons, List.nodup_cons] at hnd
    rcases List.mem_cons.mp hm with rfl | hmem
    · refine ⟨w0, hw0, ?_⟩
      rw [sideload_foldl_frame rest _ res2 hrest (ts sv.1)
        (fun sv2 hm2 => fun he => hnd.1 (he ▸ List.mem_map_of_mem _ hm2))]
      exact dget_dset_self res (ts sv.1) w0
    · exact ih (dset res (ts sv0.1) w0) res2 hrest hnd.2 sv hmem

theorem fetch_sideload_of_url {resource : JDict} {ts : String → String}
    {http : Json → Json} {s : String} {url : Json}
    (hurl : dget resource (ts s) = some url) (hnn : url ≠ .null) :
    fetch_sideload resource ts http s = .ok (some (http url)) := by
  cases url with
  | null => exact absurd rfl hnn
  | bool b => simp [fetch_sideload, hurl]
  | int n => simp [fetch_sideload, hurl]
  | float q => simp [fetch_sideload, hurl]
  | str s2 => simp [fetch_sideload, hurl]
  | arr xs => simp [fetch_sideload, hurl]
  | obj kvs => simp [fetch_sideload, hurl]

theorem sideloadValue_content_inv {v w : Json}
    (h : sideloadValue "content" (some v) = .ok w) :
    ∃ kvs, v = .obj kvs ∧ ∃ inner, dget kvs "content" = some inner ∧ w = inner := by
  cases v with
  | obj kvs =>
    refine ⟨kvs, rfl, ?_⟩
    cases hc : dget kvs "content" with
    | none => simp [sideloadValue, hc] at h
    | some inner =>
      refine ⟨inner, rfl, ?_⟩
      simp only [sideloadValue, hc] at h
      simp only [String.reduceEq, reduceIte, if_true, Except.ok.injEq] at h
      first
      | exact h
      | exact h.symm
  | null => simp [sideloadValue] at h
  | bool b => simp [sideloadValue] at h
  | int n => simp [sideloadValue] at h
  | float q => simp [sideloadValue] at h
  | str s2 => simp [sideloadValue] at h
  | arr xs => simp [sideloadValue] at h

/-- C5: when `retrieve_annotation` is called with a non-empty `sideloads`
sequence whose singular field names are distinct, the returned annotation
is the deserialization of the enriched JSON in which: every field other
than the requested singular sideload fields is unchanged (frame); a
sideload field whose URL was `null` stays `null`; any other sideload
field is replaced by the fetched resource object, the `"content"`
sideload being further unwrapped to the inner `"content"` value of the
fetched object. -/
theorem retrieve_annotation_sideloads_inline {α : Type} (fetch_one : Int → JDict)
    (deser : JDict → α) (ts : String → String) (http : Json → Json)
    (aid : Int) (sideloads : List String) (enriched : JDict)
    (hne : sideloads ≠ [])
    (hok : sideloadAll ts http (fetch_one aid) sideloads = .ok enriched)
    (hnd : (sideloads.map ts).Nodup) :
    retrieve_annotation fetch_one deser ts http aid sideloads = .ok (deser enriched) ∧
    (∀ k, (∀ s ∈ sideloads, ts s ≠ k) → dget enriched k = dget (fetch_one aid) k) ∧
    (∀ s ∈ sideloads,
      (dget (fetch_one aid) (ts s) = some .null →
        dget enriched (ts s) = some .null) ∧
      (∀ url, url ≠ .null → dget (fetch_one aid) (ts s) = some url →
        (s ≠ "content" → dget enriched (ts s) = some (http url)) ∧
        (s = "content" → ∃ kvs, http url = .obj kvs ∧
          ∃ inner, dget kvs "content" = some inner ∧
            dget enriched (ts s) = some inner))) := by
  have hok2 := hok
  simp only [sideloadAll] at hok2
  obtain ⟨fetched, heach, hfold⟩ := bind_ok_inv hok2
  have hlen : fetched.length = sideloads.length := eachE_ok_length heach
  have hkeys : ((sideloads.zip fetched).map
      (fun sv => ts sv.1)).Nodup := by
    have h1 : (sideloads.zip fetched).map Prod.fst = sideloads :=
      List.map_fst_zip sideloads fetched (le_of_eq hlen.symm)
    have h2 : (sideloads.zip fetched).map (fun sv => ts sv.1) =
        ((sideloads.zip fetched).map Prod.fst).map ts := by
      rw [List.map_map]
      rfl
    rw [h2, h1]
    exact hnd
  refine ⟨?_, ?_, ?_⟩
  · cases sideloads with
    | nil => exact absurd rfl hne
    | cons s0 rest =>
      simp [ retrieve_annotation, hok]
  · intro k hk
    refine sideload_foldl_frame (sideloads.zip fetched) (fetch_one aid) enriched
      hfold k ?_
    intro sv hm
    obtain ⟨a, b⟩ := sv
    exact hk a (List.mem_zip hm).1
  · intro s hs
    obtain ⟨⟨i, hi⟩, rfl⟩ := List.mem_iff_get.mp hs
    have hj : i < fetched.length := by omega
    have hfetch := eachE_ok_get heach i hi hj
    have hzl : i < (sideloads.zip fetched).length := by
      simp only [List.length_zip]
      omega
    have hpair : (sideloads.get ⟨i, hi⟩, fetched.get ⟨i, hj⟩) ∈
        sideloads.zip fetched := by
      have hmem := List.getElem_mem hzl
      rw [List.getElem_zip] at hmem
      simpa [List.get_eq_getElem] using hmem
    obtain ⟨w, hw, hres⟩ := sideload_foldl_written (sideloads.zip fetched)
      (fetch_one aid) enriched hfold hkeys _ hpair
    constructor
    · intro hurl
      have hfv : fetch_sideload (fetch_one aid) ts http (sideloads.get ⟨i, hi⟩) =
          .ok none := by
        simp only [List.get_eq_getElem] at hurl
        simp [fetch_sideload, hurl]
      rw [hfv] at hfetch
      have hvnone : fetched.get ⟨i, hj⟩ = none := by
        injection hfetch with h2
        exact h2.symm
      rw [hvnone] at hw
      have hwn : w = Json.null := by
        simpa [sideloadValue] using hw.symm
      rw [hwn] at hres
      exact hres
    · intro url hnn hurl
      have hfv := @fetch_sideload_of_url (fetch_one aid) ts http
        (sideloads.get ⟨i, hi⟩) url hurl hnn
      rw [hfv] at hfetch
      have hvs : fetched.get ⟨i, hj⟩ = some (http url) := by
        injection hfetch with h2
        exact h2.symm
      rw [hvs] at hw
      constructor
      · intro hsc
        have hwv : w = http url := by
          simp only [List.get_eq_getElem] at hsc
          simpa [sideloadValue, hsc] using hw.symm
        rw [hwv] at hres
        exact hres
      · intro hsc
        rw [hsc] at hw
        obtain ⟨kvs, hkv, inner, hinner, hwv⟩ := sideloadValue_content_inv hw
        rw [hwv] at hres
        exact ⟨kvs, hkv, inner, hinner, hres⟩

/-- C5 witness: two sideloads (`"document"` and the unwrapped
`"content"`) on a concrete annotation resource, with the `"id"` field
untouched. -/
theorem retrieve_annotation_sideloads_inline_witness :
    retrieve_annotation (fun _ => annRes) (fun r => r) (fun s => s) annHttp 1
        ["document", "content"] = .ok annEnriched ∧
    (∀ k, (∀ s ∈ (["document", "content"] : List String), s ≠ k) →
      dget annEnriched k = dget annRes k) ∧
    (∀ s ∈ (["document", "content"] : List String),
      (dget annRes s = some .null → dget annEnriched s = some .null) ∧
      (∀ url, url ≠ .null → dget annRes s = some url →
        (s ≠ "content" → dget annEnriched s = some (annHttp url)) ∧
        (s = "content" → ∃ kvs, annHttp url = .obj kvs ∧
          ∃ inner, dget kvs "content" = some inner ∧
            dget annEnriched s = some inner))) :=
  @retrieve_annotation_sideloads_inline JDict (fun _ => annRes) (fun r => r)
    (fun s => s) annHttp 1 ["document", "content"] annEnriched
    (by decide) rfl (by decide)

/-! ## Claim C6 -/

theorem retryLoop_unfold (attempt : Nat → Except ε α) (rbf : Rat) (jit : Nat → Rat)
    (i r : Nat) :
    retryLoop attempt rbf jit i r =
      match attempt i with
      | .ok a => ([.attempt i], .ok a)
      | .error e =>
        match r with
        | 0 => ([.attempt i], .error e)
        | rr + 1 =>
          let rest := retryLoop attempt rbf jit (i + 1) rr
          (.attempt i :: .waited (backoffDelay rbf jit i) :: rest.1, rest.2) := by
  rw [retryLoop]

theorem retryLoop_attempts_le {attempt : Nat → Except ε α} {rbf : Rat}
    {jit : Nat → Rat} :
    ∀ (r i : Nat), attemptCount (retryLoop attempt rbf jit i r).1 ≤ r + 1 := by
  intro r
  induction r with
  | zero =>
    intro i
    rw [retryLoop_unfold]
    cases h : attempt i <;> simp [attemptCount]
  | succ rr ih =>
    intro i
    rw [retryLoop_unfold]
    cases h : attempt i with
    | ok a => simp [attemptCount]
    | error e =>
      simp only [attemptCount, List.countP_cons]
      have := ih (i + 1)
      simp only [attemptCount] at this
      simp
      omega

theorem retryLoop_waited {attempt : Nat → Except ε α} {rbf : Rat} {jit : Nat → Rat} :
    ∀ (r i : Nat) (d : Rat),
      RetryEvent.waited d ∈ (retryLoop attempt rbf jit i r).1 →
      ∃ k, i ≤ k ∧ k < i + r ∧ d = backoffDelay rbf jit k := by
  intro r
  induction r with
  | zero =>
    intro i d hm
    rw [retryLoop_unfold] at hm
    cases h : attempt i <;> rw [h] at hm <;> simp at hm
  | succ rr ih =>
    intro i d hm
    rw [retryLoop_unfold] at hm
    cases h : attempt i with
    | ok a => rw [h] at hm; simp at hm
    | error e =>
      rw [h] at hm
      simp only [List.mem_cons] at hm
      rcases hm with hm | hm | hm
      · exact absurd hm (by simp)
      · have hd : d = backoffDelay rbf jit i := by
          cases hm
          rfl
        exact ⟨i, le_refl i, by omega, hd⟩
      · obtain ⟨k, hk1, hk2, hk3⟩ := ih (i + 1) d hm
        exact ⟨k, by omega, by omega, hk3⟩

theorem retryLoop_all_fail {attempt : Nat → Except ε α} {efun : Nat → ε}
    (hf : ∀ k, attempt k = .error (efun k)) (rbf : Rat) (jit : Nat → Rat) :
    ∀ (r i : Nat), (retryLoop attempt rbf jit i r).2 = .error (efun (i + r)) ∧
      attemptCount (retryLoop attempt rbf jit i r).1 = r + 1 := by
  intro r
  induction r with
  | zero =>
    intro i
    rw [retryLoop_unfold, hf i]
    simp [attemptCount]
  | succ rr ih =>
    intro i
    obtain ⟨ih1, ih2⟩ := ih (i + 1)
    rw [retryLoop_unfold, hf i]
    constructor
    · rw [show i + 1 + rr = i + (rr + 1) by omega] at ih1
      exact ih1
    · simp only [attemptCount, List.countP_cons]
      simp only [attemptCount] at ih2
      simp [ih2]

theorem retryLoop_ok {attempt : Nat → Except ε α} {rbf : Rat} {jit : Nat → Rat} :
    ∀ (r i : Nat) (a : α), (retryLoop attempt rbf jit i r).2 = .ok a →
      ∃ k, i ≤ k ∧ k ≤ i + r ∧ attempt k = .ok a := by
  intro r
  induction r with
  | zero =>
    intro i a h
    rw [retryLoop_unfold] at h
    cases hat : attempt i with
    | ok a0 =>
      rw [hat] at h
      exact ⟨i, le_refl i, by omega, by rw [hat, show a0 = a from by injection h]⟩
    | error e => rw [hat] at h; simp at h
  | succ rr ih =>
    intro i a h
    rw [retryLoop_unfold] at h
    cases hat : attempt i with
    | ok a0 =>
      rw [hat] at h
      exact ⟨i, le_refl i, by omega, by rw [hat, show a0 = a from by injection h]⟩
    | error e =>
      rw [hat] at h
      obtain ⟨k, hk1, hk2, hk3⟩ := ih (i + 1) a h
      exact ⟨k, by omega, by omega, hk3⟩

/-- C6: (spec-modelled: the retry wrapper lives in
`InternalAsyncClient`, which is not under `src/`.)  Every request through
the retrying transport makes at most `n_retries + 1` attempts; the delay
before each retry following failed attempt `k` is the exponential
backoff multiplied by `retry_backoff_factor` plus the random jitter of
that round, hence at most `retry_backoff_factor * 2 ^ k + retry_max_jitter`
when every jitter draw is within `[0, retry_max_jitter]`; when every
attempt fails the wrapper raises the last exception after exactly
`n_retries + 1` attempts; and a success is always the value of some
attempt within the budget. -/
theorem retry_bounded_exponential_backoff {ε α : Type}
    (attempt : Nat → Except ε α) (n_retries : Nat) (rbf : Rat)
    (jitter : Nat → Rat) (max_jitter : Rat)
    (hj : ∀ i, 0 ≤ jitter i ∧ jitter i ≤ max_jitter) :
    attemptCount (retryRequest attempt n_retries rbf jitter).1 ≤ n_retries + 1 ∧
    (∀ d, RetryEvent.waited d ∈ (retryRequest attempt n_retries rbf jitter).1 →
      ∃ k, k < n_retries ∧ d = rbf * 2 ^ k + jitter k ∧
        d ≤ rbf * 2 ^ k + max_jitter) ∧
    (∀ efun : Nat → ε, (∀ k, attempt k = .error (efun k)) →
      (retryRequest attempt n_retries rbf jitter).2 = .error (efun n_retries) ∧
      attemptCount (retryRequest attempt n_retries rbf jitter).1 = n_retries + 1) ∧
    (∀ a, (retryRequest attempt n_retries rbf jitter).2 = .ok a →
      ∃ k, k ≤ n_retries ∧ attempt k = .ok a) := by
  refine ⟨retryLoop_attempts_le n_retries 0, ?_, ?_, ?_⟩
  · intro d hm
    obtain ⟨k, hk1, hk2, hk3⟩ := retryLoop_waited n_retries 0 d hm
    refine ⟨k, by omega, hk3, ?_⟩
    rw [hk3]
    exact add_le_add_left (hj k).2 _
  · intro efun hf
    have := retryLoop_all_fail hf rbf jitter n_retries 0
    simpa using this
  · intro a h
    obtain ⟨k, hk1, hk2, hk3⟩ := retryLoop_ok n_retries 0 a h
    exact ⟨k, by omega, hk3⟩

/-- C6 witness: a request failing twice then succeeding, with default
parameters `n_retries = 3`, factor 1 and zero jitter. -/
theorem retry_bounded_exponential_backoff_witness :
    attemptCount (retryRequest (fun i => if i < 2 then Except.error "boom"
      else Except.ok i) 3 1 (fun _ => 0)).1 ≤ 3 + 1 ∧
    (∀ d, RetryEvent.waited d ∈ (retryRequest (fun i => if i < 2 then
        Except.error "boom" else Except.ok i) 3 1 (fun _ => 0)).1 →
      ∃ k, k < 3 ∧ d = 1 * 2 ^ k + (fun _ => (0 : Rat)) k ∧
        d ≤ 1 * 2 ^ k + 0) ∧
    (∀ efun : Nat → String, (∀ k, (fun i => if i < 2 then Except.error "boom"
        else Except.ok i) k = .error (efun k)) →
      (retryRequest (fun i => if i < 2 then Except.error "boom"
        else Except.ok i) 3 1 (fun _ => 0)).2 = .error (efun 3) ∧
      attemptCount (retryRequest (fun i => if i < 2 then Except.error "boom"
        else Except.ok i) 3 1 (fun _ => 0)).1 = 3 + 1) ∧
    (∀ a, (retryRequest (fun i => if i < 2 then Except.error "boom"
        else Except.ok i) 3 1 (fun _ => 0)).2 = .ok a →
      ∃ k, k ≤ 3 ∧ (fun i => if i < 2 then Except.error "boom"
        else Except.ok i) k = .ok a) :=
  retry_bounded_exponential_backoff
    (fun i => if i < 2 then Except.error "boom" else Except.ok i) 3 1
    (fun _ => 0) 0 (fun i => ⟨le_refl 0, le_refl 0⟩)

/-! ## Claim C7 -/

theorem yieldedRecords_flatMap (us : Nat → String) (rs : Nat → List Json) :
    ∀ l : List Nat,
      yieldedRecords (l.flatMap (fun i =>
        PageEvent.requested (us i) :: (rs i).map PageEvent.yielded)) =
      l.flatMap rs := by
  intro l
  induction l with
  | nil => rfl
  | cons x xs ih =>
    simp only [List.flatMap_cons, yieldedRecords, List.filterMap_append,
      List.filterMap_cons, List.filterMap_map, Function.comp] at ih ⊢
    rw [ih]
    congr 1
    have hall : ∀ l : List Json, List.filterMap ((fun e =>
        match e with
        | PageEvent.yielded r => some r
        | _ => none) ∘ PageEvent.yielded) l = l := by
      intro l
      induction l with
      | nil => rfl
      | cons a as iha =>
        rw [List.filterMap_cons]
        simp only [Function.comp_apply]
        rw [iha]
    exact hall (rs x)

theorem fetch_all_chain {getPage : String → Page} :
    ∀ (k : Nat) (urls : Nat → String) (fuel : Nat),
      (∀ i, i < k → (getPage (urls i)).next = some (urls (i + 1))) →
      (getPage (urls k)).next = none →
      k < fuel →
      fetch_all_by_url getPage (urls 0) fuel =
        some ((List.range (k + 1)).flatMap (fun i =>
          PageEvent.requested (urls i) ::
            (getPage (urls i)).results.map PageEvent.yielded)) := by
  intro k
  induction k with
  | zero =>
    intro urls fuel hnext hlast hf
    obtain ⟨f, rfl⟩ : ∃ f, fuel = f + 1 := ⟨fuel - 1, by omega⟩
    simp only [fetch_all_by_url, hlast]
    rw [show List.range 1 = [0] from rfl]
    simp
  | succ kk ih =>
    intro urls fuel hnext hlast hf
    obtain ⟨f, rfl⟩ : ∃ f, fuel = f + 1 := ⟨fuel - 1, by omega⟩
    have h0 : (getPage (urls 0)).next = some (urls 1) := hnext 0 (by omega)
    have hrec := ih (fun i => urls (i + 1)) f
      (fun i hi => hnext (i + 1) (by omega)) hlast (by omega)
    simp only [fetch_all_by_url, h0, hrec]
    refine congrArg some ?_
    conv_rhs => rw [List.range_succ_eq_map, List.flatMap_cons, List.flatMap_map]

theorem fetch_all_infinite {getPage : String → Page}
    (h : ∀ u, (getPage u).next ≠ none) :
    ∀ (fuel : Nat) (u : String), fetch_all_by_url getPage u fuel = none := by
  intro fuel
  induction fuel with
  | zero => intro u; rfl
  | succ f ih =>
    intro u
    simp only [fetch_all_by_url]
    cases hn : (getPage u).next with
    | none => exact absurd hn (h u)
    | some nu => simp [ih nu]

/-- C7: (spec-modelled: `fetch_all` / `fetch_all_by_url` live in
`InternalAsyncClient`, which is not under `src/`.)  For every page chain
that ends after `k` next-links, the pagination trace is exactly: request
page 0, yield its records one at a time, request page 1, ..., ending with
the first page whose `next` is `none` — so each page is requested only
after the previous page's records have been yielded, and the iterator
terminates exactly when the pages are exhausted;  the yielded records
are the concatenation of the page results in order; `list_queues` yields
each record deserialized; `request_paginated` is the same engine; and on
a chain that never exhausts the iterator never terminates. -/
theorem pagination_lazy_until_exhausted {α : Type} :
    (∀ (getPage : String → Page) (k : Nat) (urls : Nat → String) (fuel : Nat),
      (∀ i, i < k → (getPage (urls i)).next = some (urls (i + 1))) →
      (getPage (urls k)).next = none →
      k < fuel →
      fetch_all_by_url getPage (urls 0) fuel =
        some ((List.range (k + 1)).flatMap (fun i =>
          PageEvent.requested (urls i) ::
            (getPage (urls i)).results.map PageEvent.yielded)) ∧
      yieldedRecords ((List.range (k + 1)).flatMap (fun i =>
          PageEvent.requested (urls i) ::
            (getPage (urls i)).results.map PageEvent.yielded)) =
        (List.range (k + 1)).flatMap (fun i => (getPage (urls i)).results)) ∧
    (∀ (getPage : String → Page) (url : String) (fuel : Nat),
      request_paginated getPage url fuel = fetch_all_by_url getPage url fuel) ∧
    (∀ (getPage : String → Page) (deser : Json → α) (k : Nat) (urls : Nat → String)
        (fuel : Nat),
      (∀ i, i < k → (getPage (urls i)).next = some (urls (i + 1))) →
      (getPage (urls k)).next = none →
      k < fuel →
      list_queues getPage deser (urls 0) fuel =
        some (((List.range (k + 1)).flatMap (fun i =>
          (getPage (urls i)).results)).map deser)) ∧
    (∀ (getPage : String → Page), (∀ u, (getPage u).next ≠ none) →
      ∀ (fuel : Nat) (u : String), fetch_all_by_url getPage u fuel = none) := by
  refine ⟨?_, fun getPage url fuel => rfl, ?_, fun getPage h fuel u => fetch_all_infinite h fuel u⟩
  · intro getPage k urls fuel hnext hlast hf
    exact ⟨fetch_all_chain k urls fuel hnext hlast hf,
      yieldedRecords_flatMap urls (fun i => (getPage (urls i)).results) _⟩
  · intro getPage deser k urls fuel hnext hlast hf
    rw [list_queues, fetch_all_chain k urls fuel hnext hlast hf]
    simp only [Option.map_some', Option.some.injEq]
    rw [yieldedRecords_flatMap urls (fun i => (getPage (urls i)).results)]

/-- C7 witness: a concrete two-page listing consumed to exhaustion. -/
theorem pagination_lazy_until_exhausted_witness :
    list_queues pageChain (fun j => j) "p0" 2 =
      some (((List.range 2).flatMap (fun i =>
        (pageChain (if i = 0 then "p0" else "p1")).results)).map (fun j => j)) :=
  pagination_lazy_until_exhausted.2.2.1 pageChain (fun j => j) 1
    (fun i => if i = 0 then "p0" else "p1") 2 (by decide) (by decide) (by decide)
